import Mathlib

/-!
# Verification of the learned-index subsystem of `learned_index_rocksdb`

A shallow embedding, in Lean 4, of the learned-index components of the
repository:

* `LearnedIndexBlock` (src/src/learned_index/learned_index_block.cpp):
  the persisted model record, its binary serialization, CRC32 checksum and
  validity check.  Bytes are modelled as `Nat` values `< 256`; the 64-bit
  fields that are C++ `double`s are modelled by their raw 64-bit object
  representation (serialization copies bytes and never interprets them
  numerically).
* `SSTLearnedIndexManager` (src/src/learned_index/sst_learned_index_manager.cpp):
  the per-file model cache with LRU eviction, the prediction path with its
  confidence gate, and the per-file statistics.  The numeric side
  (`TrainLinearModel`, `LearnedIndexBlock::PredictBlockIndex`) is modelled
  over `ℚ`: every concrete computation settled below stays far from any
  rounding boundary, so exact rational arithmetic and IEEE doubles agree on
  the discrete results at issue.  Wall-clock timestamps become explicit
  `now` arguments; mutexes disappear because the embedding is sequential.
* `LinearModel` (src/src/learned_index/ml_model.cpp): closed-form least
  squares via normal equations and Gaussian elimination with partial
  pivoting, again over `ℚ`.
* `ModelPerformanceTracker`
  (src/src/learned_index/adaptive/model_performance_tracker.cpp): windowed
  accuracy metrics, trend analysis, the retraining decision.
* `AdaptiveRetrainingManager`
  (src/src/learned_index/adaptive/adaptive_retraining_manager.cpp): the
  retraining request queue and in-flight set.

Unordered maps are modelled as association lists (`List (String × β)`);
`std::deque` becomes `List` with `push_back` appending on the right.
Unsigned 64-bit subtraction is modelled by `sub64`, which wraps exactly as
the C++ does.
-/

set_option maxRecDepth 100000

namespace LearnedIndexRocksDB

/- The rational-arithmetic primitives are `@[irreducible]` upstream, which
blocks kernel evaluation of concrete embedded computations; restore their
default reducibility for this development. -/
attribute [local semireducible] Rat.add Rat.mul Rat.inv Rat.sub Rat.ofScientific

/-! ## Association-list helpers (model of `std::unordered_map`) -/

/-- Lookup in an association list, the model of `unordered_map::find`. -/
def alFind? {β : Type} (l : List (String × β)) (k : String) : Option β :=
  match l with
  | [] => none
  | p :: rest => if p.1 == k then some p.2 else alFind? rest k

/-- Insert-or-replace, the model of `map[k] = v`. -/
def alInsert {β : Type} (l : List (String × β)) (k : String) (v : β) :
    List (String × β) :=
  match l with
  | [] => [(k, v)]
  | p :: rest => if p.1 == k then (k, v) :: rest else p :: alInsert rest k v

/-- Erase a key, the model of `map.erase(k)`. -/
def alErase {β : Type} (l : List (String × β)) (k : String) : List (String × β) :=
  l.filter (fun p => p.1 != k)

/-- Lookup with a default value, the model of `map[k]` read on a map that
default-constructs missing entries. -/
def alFindD {β : Type} (l : List (String × β)) (k : String) (d : β) : β :=
  (alFind? l k).getD d

/-! ## Byte-level model of `LearnedIndexBlock` serialization

Little-endian byte encodings of the fixed-width fields, as written by
`std::ostringstream::write` of the in-memory representation on x86-64. -/

/-- The 4 little-endian bytes of a `uint32_t`. -/
def bytesOfU32 (x : Nat) : List Nat :=
  [x % 256, x / 256 % 256, x / 65536 % 256, x / 16777216 % 256]

/-- The 8 little-endian bytes of a `uint64_t` (or of a `double`'s raw
object representation, a 64-bit pattern). -/
def bytesOfU64 (x : Nat) : List Nat :=
  [x % 256, x / 256 % 256, x / 65536 % 256, x / 16777216 % 256,
   x / 4294967296 % 256, x / 1099511627776 % 256,
   x / 281474976710656 % 256, x / 72057594037927936 % 256]

/-- Recompose a little-endian byte list into a `Nat`. -/
def natOfBytes (l : List Nat) : Nat :=
  l.foldr (fun b acc => b + 256 * acc) 0

/-- `istringstream::read(buf, k)`: succeed with the first `k` bytes and the
rest of the stream iff `k` bytes remain; a shortfall sets the fail bit,
which `Deserialize` ultimately reports as failure. -/
def readBytes (k : Nat) (data : List Nat) : Option (List Nat × List Nat) :=
  if k ≤ data.length then some (data.take k, data.drop k) else none

/-- Read one `uint32_t`. -/
def readU32 (data : List Nat) : Option (Nat × List Nat) :=
  (readBytes 4 data).map (fun p => (natOfBytes p.1, p.2))

/-- Read one `uint64_t` (or raw `double`). -/
def readU64 (data : List Nat) : Option (Nat × List Nat) :=
  (readBytes 8 data).map (fun p => (natOfBytes p.1, p.2))

/-- Read `n` consecutive 64-bit values (the model-parameter loop of
`Deserialize`). -/
def readU64List (n : Nat) (data : List Nat) : Option (List Nat × List Nat) :=
  match n with
  | 0 => some ([], data)
  | n + 1 =>
    (readU64 data).bind fun p =>
      (readU64List n p.2).map fun q => (p.1 :: q.1, q.2)

/-- The CRC32 lookup table of `crc32_fallback`
(src/src/learned_index/learned_index_block.cpp, lines 17-61), verbatim. -/
def crcTable : List Nat :=
  [0x00000000, 0x77073096, 0xEE0E612C, 0x990951BA, 0x076DC419, 0x706AF48F,
   0xE963A535, 0x9E6495A3, 0x0EDB8832, 0x79DCB8A4, 0xE0D5E91E, 0x97D2D988,
   0x09B64C2B, 0x7EB17CBD, 0xE7B82D07, 0x90BF1D91, 0x1DB71064, 0x6AB020F2,
   0xF3B97148, 0x84BE41DE, 0x1ADAD47D, 0x6DDDE4EB, 0xF4D4B551, 0x83D385C7,
   0x136C9856, 0x646BA8C0, 0xFD62F97A, 0x8A65C9EC, 0x14015C4F, 0x63066CD9,
   0xFA0F3D63, 0x8D080DF5, 0x3B6E20C8, 0x4C69105E, 0xD56041E4, 0xA2677172,
   0x3C03E4D1, 0x4B04D447, 0xD20D85FD, 0xA50AB56B, 0x35B5A8FA, 0x42B2986C,
   0xDBBBC9D6, 0xACBCF940, 0x32D86CE3, 0x45DF5C75, 0xDCD60DCF, 0xABD13D59,
   0x26D930AC, 0x51DE003A, 0xC8D75180, 0xBFD06116, 0x21B4F4B5, 0x56B3C423,
   0xCFBA9599, 0xB8BDA50F, 0x2802B89E, 0x5F058808, 0xC60CD9B2, 0xB10BE924,
   0x2F6F7C87, 0x58684C11, 0xC1611DAB, 0xB6662D3D, 0x76DC4190, 0x01DB7106,
   0x98D220BC, 0xEFD5102A, 0x71B18589, 0x06B6B51F, 0x9FBFE4A5, 0xE8B8D433,
   0x7807C9A2, 0x0F00F934, 0x9609A88E, 0xE10E9818, 0x7F6A0DBB, 0x086D3D2D,
   0x91646C97, 0xE6635C01, 0x6B6B51F4, 0x1C6C6162, 0x856530D8, 0xF262004E,
   0x6C0695ED, 0x1B01A57B, 0x8208F4C1, 0xF50FC457, 0x65B0D9C6, 0x12B7E950,
   0x8BBEB8EA, 0xFCB9887C, 0x62DD1DDF, 0x15DA2D49, 0x8CD37CF3, 0xFBD44C65,
   0x4DB26158, 0x3AB551CE, 0xA3BC0074, 0xD4BB30E2, 0x4ADFA541, 0x3DD895D7,
   0xA4D1C46D, 0xD3D6F4FB, 0x4369E96A, 0x346ED9FC, 0xAD678846, 0xDA60B8D0,
   0x44042D73, 0x33031DE5, 0xAA0A4C5F, 0xDD0D7CC9, 0x5005713C, 0x270241AA,
   0xBE0B1010, 0xC90C2086, 0x5768B525, 0x206F85B3, 0xB966D409, 0xCE61E49F,
   0x5EDEF90E, 0x29D9C998, 0xB0D09822, 0xC7D7A8B4, 0x59B33D17, 0x2EB40D81,
   0xB7BD5C3B, 0xC0BA6CAD, 0xEDB88320, 0x9ABFB3B6, 0x03B6E20C, 0x74B1D29A,
   0xEAD54739, 0x9DD277AF, 0x04DB2615, 0x73DC1683, 0xE3630B12, 0x94643B84,
   0x0D6D6A3E, 0x7A6A5AA8, 0xE40ECF0B, 0x9309FF9D, 0x0A00AE27, 0x7D079EB1,
   0xF00F9344, 0x8708A3D2, 0x1E01F268, 0x6906C2FE, 0xF762575D, 0x806567CB,
   0x196C3671, 0x6E6B06E7, 0xFED41B76, 0x89D32BE0, 0x10DA7A5A, 0x67DD4ACC,
   0xF9B9DF6F, 0x8EBEEFF9, 0x17B7BE43, 0x60B08ED5, 0xD6D6A3E8, 0xA1D1937E,
   0x38D8C2C4, 0x4FDFF252, 0xD1BB67F1, 0xA6BC5767, 0x3FB506DD, 0x48B2364B,
   0xD80D2BDA, 0xAF0A1B4C, 0x36034AF6, 0x41047A60, 0xDF60EFC3, 0xA867DF55,
   0x316E8EEF, 0x4669BE79, 0xCB61B38C, 0xBC66831A, 0x256FD2A0, 0x5268E236,
   0xCC0C7795, 0xBB0B4703, 0x220216B9, 0x5505262F, 0xC5BA3BBE, 0xB2BD0B28,
   0x2BB45A92, 0x5CB36A04, 0xC2D7FFA7, 0xB5D0CF31, 0x2CD99E8B, 0x5BDEAE1D,
   0x9B64C2B0, 0xEC63F226, 0x756AA39C, 0x026D930A, 0x9C0906A9, 0xEB0E363F,
   0x72076785, 0x05005713, 0x95BF4A82, 0xE2B87A14, 0x7BB12BAE, 0x0CB61B38,
   0x92D28E9B, 0xE5D5BE0D, 0x7CDCEFB7, 0x0BDBDF21, 0x86D3D2D4, 0xF1D4E242,
   0x68DDB3F8, 0x1FDA836E, 0x81BE16CD, 0xF6B9265B, 0x6FB077E1, 0x18B74777,
   0x88085AE6, 0xFF0F6A70, 0x66063BCA, 0x11010B5C, 0x8F659EFF, 0xF862AE69,
   0x616BFFD3, 0x166CCF45, 0xA00AE278, 0xD70DD2EE, 0x4E048354, 0x3903B3C2,
   0xA7672661, 0xD06016F7, 0x4969474D, 0x3E6E77DB, 0xAED16A4A, 0xD9D65ADC,
   0x40DF0B66, 0x37D83BF0, 0xA9BCAE53, 0xDEBB9EC5, 0x47B2CF7F, 0x30B5FFE9,
   0xBDBDF21C, 0xCABAC28A, 0x53B39330, 0x24B4A3A6, 0xBAD03605, 0xCDD70693,
   0x54DE5729, 0x23D967BF, 0xB3667A2E, 0xC4614AB8, 0x5D681B02, 0x2A6F2B94,
   0xB40BBE37, 0xC30C8EA1, 0x5A05DF1B, 0x2D02EF8D]

/-- One step of `crc32_fallback`'s loop:
`crc = crc_table[(crc ^ bytes[i]) & 0xFF] ^ (crc >> 8)`. -/
def crcStep (crc b : Nat) : Nat :=
  (crcTable.getD ((crc ^^^ b) % 256) 0) ^^^ (crc / 256)

/-- `crc32_fallback(data, length)`: initial value `0xFFFFFFFF`, table-driven
update per byte, final inversion. -/
def crc32Fallback (data : List Nat) : Nat :=
  (data.foldl crcStep 0xFFFFFFFF) ^^^ 0xFFFFFFFF

/-- `LEARNED_INDEX_MAGIC_NUMBER` ("LIDX"). -/
def LEARNED_INDEX_MAGIC_NUMBER : Nat := 0x4C494458

/-- `LEARNED_INDEX_VERSION`. -/
def LEARNED_INDEX_VERSION : Nat := 1

/-- `ModelType::LINEAR` (the enum's underlying `uint32_t` value). -/
def MODEL_TYPE_LINEAR : Nat := 1

/-- `ModelMetadata`: the two accuracy fields are C++ `double`s, carried here
as their raw 64-bit object representations, which is all serialization ever
touches. -/
structure ModelMetadata where
  training_samples : Nat
  training_accuracy_bits : Nat
  validation_accuracy_bits : Nat
  training_timestamp : Nat
  last_update_timestamp : Nat
  deriving Repr, DecidableEq

/-- `BlockPrediction` (byte-level view; `confidence` as a raw 64-bit
pattern). -/
structure BlockPrediction where
  block_index : Nat
  predicted_start_key : Nat
  predicted_end_key : Nat
  confidence_bits : Nat
  deriving Repr, DecidableEq

/-- `LearnedIndexBlock` (byte-level view, the fields Serialize/Deserialize
traffic in). -/
structure LearnedIndexBlock where
  magic_number : Nat
  version : Nat
  model_type : Nat
  feature_dimensions : Nat
  parameter_count : Nat
  parameters : List Nat
  metadata : ModelMetadata
  block_predictions : List BlockPrediction
  checksum : Nat
  deriving Repr, DecidableEq

namespace LearnedIndexBlock

/-- The byte encoding of one `BlockPrediction`, as Serialize writes it. -/
def serializePrediction (p : BlockPrediction) : List Nat :=
  bytesOfU32 p.block_index ++ bytesOfU64 p.predicted_start_key ++
  bytesOfU64 p.predicted_end_key ++ bytesOfU64 p.confidence_bits

/-- `LearnedIndexBlock::Serialize` (learned_index_block.cpp, lines 74-111):
header, parameters, metadata, predictions (preceded by their count), then
the checksum field. -/
def serialize (b : LearnedIndexBlock) : List Nat :=
  bytesOfU32 b.magic_number ++ bytesOfU32 b.version ++
  bytesOfU32 b.model_type ++ bytesOfU32 b.feature_dimensions ++
  bytesOfU32 b.parameter_count ++
  (b.parameters.map bytesOfU64).flatten ++
  bytesOfU64 b.metadata.training_samples ++
  bytesOfU64 b.metadata.training_accuracy_bits ++
  bytesOfU64 b.metadata.validation_accuracy_bits ++
  bytesOfU64 b.metadata.training_timestamp ++
  bytesOfU64 b.metadata.last_update_timestamp ++
  bytesOfU32 b.block_predictions.length ++
  (b.block_predictions.map serializePrediction).flatten ++
  bytesOfU32 b.checksum

/-- The prediction-reading loop of `Deserialize`. -/
def readPredictions (n : Nat) (data : List Nat) :
    Option (List BlockPrediction × List Nat) :=
  match n with
  | 0 => some ([], data)
  | n + 1 =>
    (readU32 data).bind fun bi =>
      (readU64 bi.2).bind fun sk =>
        (readU64 sk.2).bind fun ek =>
          (readU64 ek.2).bind fun cf =>
            (readPredictions n cf.2).map fun rest =>
              (⟨bi.1, sk.1, ek.1, cf.1⟩ :: rest.1, rest.2)

/-- `LearnedIndexBlock::Deserialize` (learned_index_block.cpp, lines
113-170): checks the size lower bound, magic number and version, then reads
every remaining field in order.  It returns `!iss.fail()`, i.e. it fails
exactly when some read ran past the end of the data — it never re-verifies
the checksum it reads. -/
def deserialize (data : List Nat) : Option LearnedIndexBlock :=
  if data.length < 8 then none else
  (readU32 data).bind fun magic =>
  if magic.1 ≠ LEARNED_INDEX_MAGIC_NUMBER then none else
  (readU32 magic.2).bind fun ver =>
  if ver.1 ≠ LEARNED_INDEX_VERSION then none else
  (readU32 ver.2).bind fun mt =>
  (readU32 mt.2).bind fun fd =>
  (readU32 fd.2).bind fun pc =>
  (readU64List pc.1 pc.2).bind fun params =>
  (readU64 params.2).bind fun ts =>
  (readU64 ts.2).bind fun ta =>
  (readU64 ta.2).bind fun va =>
  (readU64 va.2).bind fun tt =>
  (readU64 tt.2).bind fun lu =>
  (readU32 lu.2).bind fun pn =>
  (readPredictions pn.1 pn.2).bind fun preds =>
  (readU32 preds.2).map fun ck =>
    { magic_number := magic.1
      version := ver.1
      model_type := mt.1
      feature_dimensions := fd.1
      parameter_count := pc.1
      parameters := params.1
      metadata := ⟨ts.1, ta.1, va.1, tt.1, lu.1⟩
      block_predictions := preds.1
      checksum := ck.1 }

/-- `LearnedIndexBlock::UpdateChecksum`: CRC32 of the serialized bytes minus
the trailing 4-byte checksum field. -/
def updateChecksum (b : LearnedIndexBlock) : LearnedIndexBlock :=
  { b with
    checksum := crc32Fallback ((serialize b).take ((serialize b).length - 4)) }

/-- `LearnedIndexBlock::VerifyChecksum`. -/
def verifyChecksum (b : LearnedIndexBlock) : Bool :=
  crc32Fallback ((serialize b).take ((serialize b).length - 4)) == b.checksum

/-- `LearnedIndexBlock::IsValid`. -/
def isValid (b : LearnedIndexBlock) : Bool :=
  b.magic_number == LEARNED_INDEX_MAGIC_NUMBER &&
  b.version == LEARNED_INDEX_VERSION &&
  b.parameter_count == b.parameters.length &&
  verifyChecksum b

/-- Well-formedness: every field fits the width of its C++ type (automatic
in C++, a side condition of the `Nat` model). -/
def wf (b : LearnedIndexBlock) : Prop :=
  b.magic_number < 2 ^ 32 ∧ b.version < 2 ^ 32 ∧ b.model_type < 2 ^ 32 ∧
  b.feature_dimensions < 2 ^ 32 ∧ b.parameter_count < 2 ^ 32 ∧
  (∀ p ∈ b.parameters, p < 2 ^ 64) ∧
  b.metadata.training_samples < 2 ^ 64 ∧
  b.metadata.training_accuracy_bits < 2 ^ 64 ∧
  b.metadata.validation_accuracy_bits < 2 ^ 64 ∧
  b.metadata.training_timestamp < 2 ^ 64 ∧
  b.metadata.last_update_timestamp < 2 ^ 64 ∧
  b.block_predictions.length < 2 ^ 32 ∧
  (∀ p ∈ b.block_predictions,
    p.block_index < 2 ^ 32 ∧ p.predicted_start_key < 2 ^ 64 ∧
    p.predicted_end_key < 2 ^ 64 ∧ p.confidence_bits < 2 ^ 64) ∧
  b.checksum < 2 ^ 32

instance (b : LearnedIndexBlock) : Decidable b.wf := by
  unfold wf; infer_instance

end LearnedIndexBlock

/-- Overwrite the byte at index `i` (a single-byte corruption of a
serialized record). -/
def corruptAt (data : List Nat) (i : Nat) (v : Nat) : List Nat :=
  data.set i v


/-! ## Numeric view of `LearnedIndexBlock` (exact-rational model of the
`double` arithmetic)

The prediction and training arithmetic of
src/src/learned_index/learned_index_block.cpp and
src/src/learned_index/sst_learned_index_manager.cpp runs on C++ `double`s;
it is modelled here over `ℚ`.  Every concrete value a claim is settled on
below lies far from the rounding boundaries of the discretizations
involved (integer truncation, comparisons against thresholds), so the
rational results coincide with the IEEE ones there.  The `checksum` field
and `UpdateChecksum`/`VerifyChecksum` live in the byte-level view above;
every model this view constructs has just run `UpdateChecksum`, whose
output by construction satisfies `VerifyChecksum`, so `IsValid`'s checksum
conjunct is `true` for them and is omitted from `isValid` here. -/

/-- `BlockPrediction` (numeric view). -/
structure BlockPredictionQ where
  block_index : Nat
  predicted_start_key : Nat
  predicted_end_key : Nat
  confidence : ℚ
  deriving Repr, DecidableEq

/-- `ModelMetadata` (numeric view). -/
structure ModelMetadataQ where
  training_samples : Nat
  training_accuracy : ℚ
  validation_accuracy : ℚ
  training_timestamp : Nat
  last_update_timestamp : Nat
  deriving Repr, DecidableEq

/-- `LearnedIndexBlock` (numeric view); defaults are the C++ default
constructor's. -/
structure LearnedIndexBlockQ where
  magic_number : Nat := LEARNED_INDEX_MAGIC_NUMBER
  version : Nat := LEARNED_INDEX_VERSION
  model_type : Nat := MODEL_TYPE_LINEAR
  feature_dimensions : Nat := 1
  parameter_count : Nat := 0
  parameters : List ℚ := []
  metadata : ModelMetadataQ := ⟨0, 0, 0, 0, 0⟩
  block_predictions : List BlockPredictionQ := []
  deriving Repr, DecidableEq

/-- `static_cast<int>` of a `double`: truncation toward zero, i.e.
T-division of the numerator by the denominator. -/
def truncQ (q : ℚ) : ℤ :=
  q.num.tdiv (q.den : ℤ)

/-- `std::max(a, b)` (`(a < b) ? b : a`); the comparison is the executable
`Rat.blt` so that concrete instances evaluate in the kernel. -/
def qmax (a b : ℚ) : ℚ :=
  if Rat.blt a b then b else a

/-- `std::abs` on a `double`, in the rational model. -/
def qabs (a : ℚ) : ℚ :=
  if Rat.blt a 0 then -a else a

/-- The `confidence < confidence_threshold` comparison of the prediction
path, as executable `Rat.blt`. -/
def qlt (a b : ℚ) : Bool :=
  Rat.blt a b

/-- `std::max` on `int`. -/
def imax (a b : ℤ) : ℤ :=
  if a < b then b else a

/-- `std::min` on `int`. -/
def imin (a b : ℤ) : ℤ :=
  if b < a then b else a

namespace LearnedIndexBlockQ

/-- `LearnedIndexBlock::IsValid` (numeric view; the checksum conjunct is
handled in the byte-level view, see the section comment). -/
def isValid (m : LearnedIndexBlockQ) : Bool :=
  m.magic_number == LEARNED_INDEX_MAGIC_NUMBER &&
  m.version == LEARNED_INDEX_VERSION &&
  m.parameter_count == m.parameters.length

/-- `LearnedIndexBlock::PredictBlockIndex` (learned_index_block.cpp, lines
194-223): `-1` when invalid or empty; for a linear model with at least two
parameters, truncate `slope*key + intercept` and clamp into
`[0, size-1]`; otherwise a `lower_bound` scan of the predictions. -/
def predictBlockIndex (m : LearnedIndexBlockQ) (key : Nat) : ℤ :=
  if ¬ (m.isValid = true) ∨ m.block_predictions = [] then -1
  else if m.model_type = MODEL_TYPE_LINEAR ∧ 2 ≤ m.parameters.length then
    let slope := m.parameters.getD 0 0
    let intercept := m.parameters.getD 1 0
    let predicted_block := truncQ (slope * (key : ℚ) + intercept)
    imax 0 (imin predicted_block ((m.block_predictions.length : ℤ) - 1))
  else
    match m.block_predictions.findIdx? (fun p => key ≤ p.predicted_end_key) with
    | some i => (i : ℤ)
    | none => (m.block_predictions.length : ℤ) - 1

/-- `LearnedIndexBlock::GetPredictionConfidence`: the confidence stored with
the predicted block, `0.0` when the index is out of range. -/
def getPredictionConfidence (m : LearnedIndexBlockQ) (key : Nat) : ℚ :=
  let bi := m.predictBlockIndex key
  if 0 ≤ bi ∧ bi < (m.block_predictions.length : ℤ) then
    (m.block_predictions.getD bi.toNat ⟨0, 0, 0, 0⟩).confidence
  else 0

/-- Insert a prediction into a list sorted by `predicted_start_key`. -/
def insertByStartKey (p : BlockPredictionQ) :
    List BlockPredictionQ → List BlockPredictionQ
  | [] => [p]
  | q :: rest =>
    if p.predicted_start_key < q.predicted_start_key then p :: q :: rest
    else q :: insertByStartKey p rest

/-- `LearnedIndexBlock::AddBlockPrediction`: push, then keep the list
sorted by start key (`std::sort` after every push; modelled as a sorted
insert, which agrees with it whenever start keys are distinct). -/
def addBlockPrediction (m : LearnedIndexBlockQ) (p : BlockPredictionQ) :
    LearnedIndexBlockQ :=
  { m with block_predictions := insertByStartKey p m.block_predictions }

end LearnedIndexBlockQ

/-- `SSTLearnedIndexManager::TrainLinearModel`
(sst_learned_index_manager.cpp, lines 399-458): closed-form simple linear
regression of block index on key, one `BlockPrediction` per training pair,
residual-based accuracy metadata.  Returns `none` (`nullptr`) for fewer
than 2 samples.  Caveat of the rational model: when all keys coincide the
C++ slope is `0.0/0.0 = NaN`, while `ℚ` division yields `0`; no claim is
settled on that case through this definition. -/
def trainLinearModel (training_data : List (Nat × Nat)) (now : Nat) :
    Option LearnedIndexBlockQ :=
  if training_data.length < 2 then none
  else
    let n : ℚ := training_data.length
    let sum_x : ℚ := (training_data.map (fun p => (p.1 : ℚ))).sum
    let sum_y : ℚ := (training_data.map (fun p => (p.2 : ℚ))).sum
    let sum_xy : ℚ := (training_data.map (fun p => (p.1 : ℚ) * (p.2 : ℚ))).sum
    let sum_x2 : ℚ := (training_data.map (fun p => (p.1 : ℚ) * (p.1 : ℚ))).sum
    let slope : ℚ := (n * sum_xy - sum_x * sum_y) / (n * sum_x2 - sum_x * sum_x)
    let intercept : ℚ := (sum_y - slope * sum_x) / n
    let total_error : ℚ :=
      (training_data.map
        (fun p => qabs (slope * (p.1 : ℚ) + intercept - (p.2 : ℚ)))).sum
    let base : LearnedIndexBlockQ :=
      { model_type := MODEL_TYPE_LINEAR
        feature_dimensions := 1
        parameters := [slope, intercept]
        parameter_count := 2
        metadata :=
          { training_samples := training_data.length
            training_accuracy := qmax 0 (1 - (total_error / n) / 10)
            validation_accuracy := qmax 0 (1 - (total_error / n) / 10)
            training_timestamp := now
            last_update_timestamp := now } }
    some (training_data.foldl
      (fun m p =>
        m.addBlockPrediction
          { block_index := p.2
            predicted_start_key := p.1
            predicted_end_key := p.1
            confidence :=
              qmax 0 (1 - qabs (slope * (p.1 : ℚ) + intercept - (p.2 : ℚ)) / 10) })
      base)

/-! ## `SSTLearnedIndexManager`

State-passing model of src/src/learned_index/sst_learned_index_manager.cpp.
The filesystem written by `SaveModelToFile` and read back by
`LoadModelFromFile` is part of the state (`saved_files`); saving is
modelled as succeeding, and loading returns the saved model directly — the
byte-level `Serialize`/`Deserialize` round trip this collapses is proved
separately (`LearnedIndexBlock.deserialize_serialize`).  Wall-clock reads
become explicit `now` arguments. -/

/-- `SSTLearnedIndexOptions` with the header's defaults. -/
structure SSTLearnedIndexOptions where
  enabled : Bool := true
  cache_models : Bool := true
  max_cache_size : Nat := 1000
  confidence_threshold : ℚ := 8 / 10
  max_prediction_error_blocks : Nat := 2
  enable_fallback : Bool := true
  preferred_model_type : Nat := MODEL_TYPE_LINEAR
  enable_batch_predictions : Bool := true
  deriving Repr, DecidableEq

/-- `SSTLearnedIndexStats` with its in-class initializers. -/
structure SSTLearnedIndexStats where
  total_queries : Nat := 0
  successful_predictions : Nat := 0
  fallback_queries : Nat := 0
  average_prediction_error : ℚ := 0
  cache_hits : Nat := 0
  cache_misses : Nat := 0
  last_update_timestamp : Nat := 0
  deriving Repr, DecidableEq

/-- `CachedModel`. -/
structure CachedModel where
  model : LearnedIndexBlockQ
  last_access_time : Nat := 0
  access_count : Nat := 0
  file_path : String
  deriving Repr, DecidableEq

/-- The manager's mutable state (cache map, LRU order vector, per-file
stats map) plus the model files on disk. -/
structure ManagerState where
  options : SSTLearnedIndexOptions
  model_cache : List (String × CachedModel) := []
  access_order : List String := []
  file_stats : List (String × SSTLearnedIndexStats) := []
  saved_files : List (String × LearnedIndexBlockQ) := []
  deriving Repr, DecidableEq

/-- A fresh manager (`SSTLearnedIndexManager::SSTLearnedIndexManager`). -/
def initManager (options : SSTLearnedIndexOptions) : ManagerState :=
  { options := options }

/-- `SSTLearnedIndexManager::UpdateStats` (lines 371-393): bump
`total_queries` and exactly one of `successful_predictions` (updating the
rolling error average) or `fallback_queries`. -/
def updateStats (st : ManagerState) (path : String) (ok : Bool) (error : ℚ)
    (now : Nat) : ManagerState :=
  let s0 := alFindD st.file_stats path {}
  let s1 := { s0 with total_queries := s0.total_queries + 1 }
  let s2 :=
    if ok then
      let s := { s1 with successful_predictions := s1.successful_predictions + 1 }
      if s.total_queries == 1 then { s with average_prediction_error := error }
      else
        { s with average_prediction_error :=
            (s.average_prediction_error * ((s.total_queries - 1 : Nat) : ℚ) + error) /
              ((s.total_queries : Nat) : ℚ) }
    else { s1 with fallback_queries := s1.fallback_queries + 1 }
  { st with file_stats :=
      alInsert st.file_stats path { s2 with last_update_timestamp := now } }

/-- The scan of `EvictLeastRecentlyUsed` (lines 346-361): starting from the
front of `access_order_`, keep the entry with the strictly smallest
`last_access_time`; entries that have dropped out of the cache are
skipped. -/
def lruScan (cache : List (String × CachedModel)) (acc : String × Nat) :
    List String → String × Nat
  | [] => acc
  | fp :: rest =>
    match alFind? cache fp with
    | some cm =>
      if cm.last_access_time < acc.2 then lruScan cache (fp, cm.last_access_time) rest
      else lruScan cache acc rest
    | none => lruScan cache acc rest

/-- The key `EvictLeastRecentlyUsed` selects (`lru_file_path`), `none` when
`access_order_` is empty.  The C++ seeds the scan by indexing
`model_cache_[access_order_.front()]`; when the front entry is stale
(possible only after re-creating a cached path, where the source would
dereference a default-constructed null entry) the model seeds with access
time 0 instead of faulting. -/
def evictChoice (st : ManagerState) : Option String :=
  match st.access_order with
  | [] => none
  | front :: _ =>
    let init : Nat :=
      (alFindD st.model_cache front
        { model := {}, file_path := front }).last_access_time
    some (lruScan st.model_cache (front, init) st.access_order).1

/-- `SSTLearnedIndexManager::EvictLeastRecentlyUsed` (lines 346-369):
remove the selected entry from the cache and its (first occurrence in the)
access-order vector. -/
def evictLeastRecentlyUsed (st : ManagerState) : ManagerState :=
  match evictChoice st with
  | none => st
  | some lru =>
    { st with
      model_cache := alErase st.model_cache lru
      access_order := st.access_order.erase lru }

/-- `SSTLearnedIndexManager::LoadLearnedIndex` (lines 19-56): refresh the
entry on a cache hit; otherwise read the saved model (`LoadModelFromFile`
+ `Deserialize`, collapsed by the round trip), reject invalid models, and
insert after evicting when at capacity (`size >= max_cache_size`). -/
def loadLearnedIndex (st : ManagerState) (path : String) (now : Nat) :
    Bool × ManagerState :=
  if ¬ (st.options.enabled = true) then (false, st)
  else
    match alFind? st.model_cache path with
    | some cm =>
      let cm1 := { cm with last_access_time := now,
                           access_count := cm.access_count + 1 }
      (true, { st with model_cache := alInsert st.model_cache path cm1 })
    | none =>
      match alFind? st.saved_files path with
      | none => (false, st)
      | some m =>
        if ¬ (m.isValid = true) then (false, st)
        else
          let st1 :=
            if st.options.max_cache_size ≤ st.model_cache.length then
              evictLeastRecentlyUsed st
            else st
          (true, { st1 with
            model_cache := alInsert st1.model_cache path
              { model := m, last_access_time := now, access_count := 1,
                file_path := path }
            access_order := st1.access_order ++ [path] })

/-- `SSTLearnedIndexManager::CreateLearnedIndex` (lines 58-102): train
(every `preferred_model_type` falls back to `TrainLinearModel`), reject
null/invalid models, save to disk (modelled as succeeding), then insert
after evicting when at capacity. -/
def createLearnedIndex (st : ManagerState) (path : String)
    (pairs : List (Nat × Nat)) (now : Nat) : Bool × ManagerState :=
  if ¬ (st.options.enabled = true) ∨ pairs = [] then (false, st)
  else
    match trainLinearModel pairs now with
    | none => (false, st)
    | some model =>
      if ¬ (model.isValid = true) then (false, st)
      else
        let st1 := { st with saved_files := alInsert st.saved_files path model }
        let st2 :=
          if st1.options.max_cache_size ≤ st1.model_cache.length then
            evictLeastRecentlyUsed st1
          else st1
        (true, { st2 with
          model_cache := alInsert st2.model_cache path
            { model := model, last_access_time := now, access_count := 1,
              file_path := path }
          access_order := st2.access_order ++ [path] })

/-- The cache-hit tail of `SSTLearnedIndexManager::PredictBlockIndex`
(lines 127-143): refresh access statistics, predict, and gate on
`confidence < confidence_threshold` — below the threshold the call records
a fallback and returns `-1`. -/
def predictHit (st : ManagerState) (path : String) (cm : CachedModel)
    (key : Nat) (now : Nat) : ℤ × ManagerState :=
  let cm1 := { cm with last_access_time := now, access_count := cm.access_count + 1 }
  let st1 := { st with model_cache := alInsert st.model_cache path cm1 }
  let predicted := cm1.model.predictBlockIndex key
  let confidence := cm1.model.getPredictionConfidence key
  if qlt confidence st1.options.confidence_threshold then
    (-1, updateStats st1 path false 0 now)
  else
    (predicted, updateStats st1 path true 0 now)

/-- `SSTLearnedIndexManager::PredictBlockIndex` (lines 104-144): `-1` when
disabled; on a cache miss try `LoadLearnedIndex` and record a fallback if
that fails. -/
def predictBlockIndexM (st : ManagerState) (path : String) (key : Nat)
    (now : Nat) : ℤ × ManagerState :=
  if ¬ (st.options.enabled = true) then (-1, st)
  else
    match alFind? st.model_cache path with
    | some cm => predictHit st path cm key now
    | none =>
      let load := loadLearnedIndex st path now
      if ¬ (load.1 = true) then (-1, updateStats load.2 path false 0 now)
      else
        match alFind? load.2.model_cache path with
        | none => (-1, updateStats load.2 path false 0 now)
        | some cm => predictHit load.2 path cm key now

/-- `SSTLearnedIndexManager::BatchPredictBlockIndices` (lines 161-205):
without batch mode, individual predictions; with it, one pass over the
keys against the cached model (`confidence >= threshold` counts a
success), then one access-statistics update. -/
def batchPredictBlockIndices (st : ManagerState) (path : String)
    (keys : List Nat) (now : Nat) : List ℤ × ManagerState :=
  if ¬ (st.options.enabled = true) ∨ ¬ (st.options.enable_batch_predictions = true) then
    keys.foldl
      (fun acc k =>
        let r := predictBlockIndexM acc.2 path k now
        (acc.1 ++ [r.1], r.2))
      (([] : List ℤ), st)
  else
    match alFind? st.model_cache path with
    | none => (keys.map (fun _ => (-1 : ℤ)), st)
    | some cm =>
      let pass := keys.foldl
        (fun acc k =>
          let predicted := cm.model.predictBlockIndex k
          let confidence := cm.model.getPredictionConfidence k
          if ¬ (qlt confidence st.options.confidence_threshold = true) then
            (acc.1 ++ [predicted], updateStats acc.2 path true 0 now)
          else
            (acc.1 ++ [(-1 : ℤ)], updateStats acc.2 path false 0 now))
        (([] : List ℤ), st)
      let cm1 := { cm with last_access_time := now,
                           access_count := cm.access_count + keys.length }
      (pass.1, { pass.2 with
        model_cache := alInsert pass.2.model_cache path cm1 })

/-- `SSTLearnedIndexManager::RemoveLearnedIndex` (lines 216-230). -/
def removeLearnedIndex (st : ManagerState) (path : String) : ManagerState :=
  { st with
    model_cache := alErase st.model_cache path
    access_order := st.access_order.erase path
    file_stats := alErase st.file_stats path }

/-- `SSTLearnedIndexManager::ClearCache` (lines 281-288). -/
def clearCache (st : ManagerState) : ManagerState :=
  { st with model_cache := [], access_order := [], file_stats := [] }

/-- The eviction loop of `UpdateOptions` (`while size > max`), with the
cache size as fuel (each pass on a well-formed cache shrinks it). -/
def evictDown (st : ManagerState) : Nat → ManagerState
  | 0 => st
  | fuel + 1 =>
    if st.options.max_cache_size < st.model_cache.length then
      evictDown (evictLeastRecentlyUsed st) fuel
    else st

/-- `SSTLearnedIndexManager::UpdateOptions` (lines 290-298). -/
def updateOptions (st : ManagerState) (new_options : SSTLearnedIndexOptions) :
    ManagerState :=
  let st1 := { st with options := new_options }
  evictDown st1 st1.model_cache.length

/-- `SSTLearnedIndexManager::GetCacheSize`. -/
def getCacheSize (st : ManagerState) : Nat :=
  st.model_cache.length

/-- `SSTLearnedIndexManager::GetStats`. -/
def getStats (st : ManagerState) (path : String) : SSTLearnedIndexStats :=
  alFindD st.file_stats path {}

/-- One public mutating operation of `SSTLearnedIndexManager`
(`UpdateLearnedIndex` is literally `CreateLearnedIndex` on the additional
data, line 213). -/
inductive MgrOp where
  | load (path : String) (now : Nat)
  | create (path : String) (pairs : List (Nat × Nat)) (now : Nat)
  | predict (path : String) (key : Nat) (now : Nat)
  | batchPredict (path : String) (keys : List Nat) (now : Nat)
  | update (path : String) (pairs : List (Nat × Nat)) (now : Nat)
  | remove (path : String)
  | clear
  | setOptions (new_options : SSTLearnedIndexOptions)
  deriving Repr, DecidableEq

/-- Apply one operation to the manager state. -/
def applyOp (st : ManagerState) : MgrOp → ManagerState
  | .load p now => (loadLearnedIndex st p now).2
  | .create p pairs now => (createLearnedIndex st p pairs now).2
  | .predict p key now => (predictBlockIndexM st p key now).2
  | .batchPredict p keys now => (batchPredictBlockIndices st p keys now).2
  | .update p pairs now => (createLearnedIndex st p pairs now).2
  | .remove p => removeLearnedIndex st p
  | .clear => clearCache st
  | .setOptions o => updateOptions st o

/-- Run a sequence of manager operations. -/
def runOps (st : ManagerState) (ops : List MgrOp) : ManagerState :=
  ops.foldl applyOp st

/-- A model-training call: `CreateLearnedIndex` or `LoadLearnedIndex`. -/
inductive TrainOp where
  | create (path : String) (pairs : List (Nat × Nat)) (now : Nat)
  | load (path : String) (now : Nat)
  deriving Repr, DecidableEq

/-- Apply one training call. -/
def applyTrainOp (st : ManagerState) : TrainOp → ManagerState
  | .create p pairs now => (createLearnedIndex st p pairs now).2
  | .load p now => (loadLearnedIndex st p now).2

/-- Run a sequence of training calls. -/
def runTrainOps (st : ManagerState) (ops : List TrainOp) : ManagerState :=
  ops.foldl applyTrainOp st

/-- `CreateLearnedIndex` is never invoked for a path that is currently
cached (re-creating a cached path duplicates it in `access_order_`, after
which the source's eviction scan dereferences a missing cache entry —
undefined behavior the model cannot follow). -/
def createsFresh (st : ManagerState) : List TrainOp → Bool
  | [] => true
  | op :: rest =>
    (match op with
     | .create p _ _ => alFind? st.model_cache p == none
     | .load _ _ => true) &&
    createsFresh (applyTrainOp st op) rest

/-! ## `ModelPerformanceTracker`

State-passing model of
src/src/learned_index/adaptive/model_performance_tracker.cpp.  `double`
metrics are `ℚ`; `uint64_t` wall-clock differences go through `sub64`,
which wraps exactly like the C++ unsigned subtraction.  The
create-an-empty-container side effect of the `Get...ForModel` accessors is
elided on pure reads (every mutator writes its entry back, which creates
it); it is invisible to the properties below. -/

/-- Unsigned 64-bit subtraction `a - b` with wraparound. -/
def sub64 (a b : Nat) : Nat :=
  (a % 2 ^ 64 + 2 ^ 64 - b % 2 ^ 64) % 2 ^ 64

/-- `PredictionEvent` with its default constructor's values. -/
structure PredictionEvent where
  timestamp_ms : Nat := 0
  key : Nat := 0
  predicted_block : Nat := 0
  actual_block : Nat := 0
  confidence : ℚ := 0
  was_correct : Bool := false
  prediction_error_bytes : ℚ := 0
  deriving Repr, DecidableEq

/-- `WindowedMetrics` with its default constructor's values. -/
structure WindowedMetrics where
  window_start_ms : Nat := 0
  window_end_ms : Nat := 0
  total_predictions : Nat := 0
  correct_predictions : Nat := 0
  accuracy_rate : ℚ := 0
  average_confidence : ℚ := 0
  average_error_bytes : ℚ := 0
  p95_latency_us : ℚ := 0
  throughput_qps : ℚ := 0
  deriving Repr, DecidableEq

/-- `ModelHealthMetrics` with its default constructor's values. -/
structure ModelHealthMetrics where
  model_id : String := ""
  last_training_timestamp_ms : Nat := 0
  total_queries_served : Nat := 0
  current_accuracy : ℚ := 0
  accuracy_trend_7d : ℚ := 0
  accuracy_trend_1h : ℚ := 0
  is_degrading : Bool := false
  needs_retraining : Bool := false
  last_retrain_timestamp_ms : Nat := 0
  retrain_count : Nat := 0
  deriving Repr, DecidableEq

/-- `ModelPerformanceTracker::Config` with the header's defaults. -/
structure TrackerConfig where
  max_events_per_window : Nat := 10000
  window_duration_ms : Nat := 60000
  max_windows_stored : Nat := 1440
  accuracy_degradation_threshold : ℚ := 5 / 100
  minimum_accuracy_threshold : ℚ := 85 / 100
  min_predictions_for_decision : Nat := 100
  min_time_between_retrains_ms : Nat := 300000
  enable_trend_analysis : Bool := true
  deriving Repr, DecidableEq

/-- The tracker's per-model maps. -/
structure TrackerState where
  config : TrackerConfig
  model_events : List (String × List PredictionEvent) := []
  model_windows : List (String × List WindowedMetrics) := []
  model_health : List (String × ModelHealthMetrics) := []
  last_window_computation : List (String × Nat) := []
  deriving Repr, DecidableEq

/-- A fresh tracker. -/
def initTracker (config : TrackerConfig) : TrackerState :=
  { config := config }

/-- `GetHealthForModel`: the stored entry, or a default with `model_id`
set. -/
def getHealth (st : TrackerState) (model_id : String) : ModelHealthMetrics :=
  alFindD st.model_health model_id { model_id := model_id }

/-- `ComputeMetricsFromEvents` (model_performance_tracker.cpp, lines
219-267): filter events into `[start_ms, end_ms]`, then accuracy, average
confidence/error and throughput. -/
def computeMetricsFromEvents (events : List PredictionEvent)
    (start_ms end_ms : Nat) : WindowedMetrics :=
  let window_events := events.filter
    (fun e => decide (start_ms ≤ e.timestamp_ms ∧ e.timestamp_ms ≤ end_ms))
  let total := window_events.length
  let base : WindowedMetrics :=
    { window_start_ms := start_ms, window_end_ms := end_ms,
      total_predictions := total }
  if total = 0 then base
  else
    let correct := (window_events.filter (fun e => e.was_correct)).length
    let dur_sec : ℚ := ((sub64 end_ms start_ms : Nat) : ℚ) / 1000
    { base with
      correct_predictions := correct
      accuracy_rate := (correct : ℚ) / (total : ℚ)
      average_confidence := (window_events.map (·.confidence)).sum / (total : ℚ)
      average_error_bytes :=
        (window_events.map (·.prediction_error_bytes)).sum / (total : ℚ)
      throughput_qps := if Rat.blt 0 dur_sec then (total : ℚ) / dur_sec else 0 }

/-- `ComputeAccuracyTrend` (lines 269-302): least-squares slope of the
accuracy of the non-empty stored windows starting within the trailing
`duration_ms`. -/
def computeAccuracyTrend (st : TrackerState) (model_id : String)
    (duration_ms now : Nat) : ℚ :=
  let start_time := sub64 now duration_ms
  let windows := alFindD st.model_windows model_id []
  let accuracies := (windows.filter
    (fun w => decide (start_time ≤ w.window_start_ms ∧ 0 < w.total_predictions))).map
    (·.accuracy_rate)
  if accuracies.length < 2 then 0
  else
    let n : ℚ := accuracies.length
    let sum_x : ℚ := n * (n - 1) / 2
    let sum_y : ℚ := accuracies.sum
    let sum_xy : ℚ := (accuracies.enum.map (fun p => (p.1 : ℚ) * p.2)).sum
    let sum_xx : ℚ := (accuracies.enum.map (fun p => (p.1 : ℚ) * (p.1 : ℚ))).sum
    (n * sum_xy - sum_x * sum_y) / (n * sum_xx - sum_x * sum_x)

/-- `IsAccuracyDegrading` (lines 304-307). -/
def isAccuracyDegrading (st : TrackerState) (model_id : String) (now : Nat) :
    Bool :=
  qlt (computeAccuracyTrend st model_id 3600000 now)
    (-(st.config.accuracy_degradation_threshold))

/-- `UpdateWindowedMetrics` (lines 203-217): archive one windowed snapshot
and trim the archive from the front to `max_windows_stored`. -/
def updateWindowedMetrics (st : TrackerState) (model_id : String) (now : Nat) :
    TrackerState :=
  let metrics := computeMetricsFromEvents (alFindD st.model_events model_id [])
    (sub64 now st.config.window_duration_ms) now
  let windows := alFindD st.model_windows model_id [] ++ [metrics]
  let windows :=
    if st.config.max_windows_stored < windows.length then
      windows.drop (windows.length - st.config.max_windows_stored)
    else windows
  { st with model_windows := alInsert st.model_windows model_id windows }

/-- `RecordPrediction` (lines 18-40): append the event to the model's
bounded buffer (dropping oldest first), bump `total_queries_served`, and
archive a windowed snapshot when `window_duration_ms` has elapsed since
the last one. -/
def recordPrediction (st : TrackerState) (model_id : String)
    (event : PredictionEvent) (now : Nat) : TrackerState :=
  let events := alFindD st.model_events model_id [] ++ [event]
  let events :=
    if st.config.max_events_per_window < events.length then
      events.drop (events.length - st.config.max_events_per_window)
    else events
  let st1 := { st with model_events := alInsert st.model_events model_id events }
  let h := getHealth st1 model_id
  let h1 := { h with total_queries_served := h.total_queries_served + 1 }
  let st2 := { st1 with model_health := alInsert st1.model_health model_id h1 }
  let last := alFindD st2.last_window_computation model_id 0
  if st2.config.window_duration_ms ≤ sub64 now last then
    let st3 := updateWindowedMetrics st2 model_id now
    { st3 with last_window_computation :=
        alInsert st3.last_window_computation model_id now }
  else st2

/-- `RecordTrainingEvent` (lines 42-60): called after a successful retrain;
stamps the retrain time, bumps `retrain_count`, and resets the
`is_degrading`/`needs_retraining` flags (its `training_samples` and
`training_accuracy` arguments are explicitly unused in the source). -/
def recordTrainingEvent (st : TrackerState) (model_id : String)
    (timestamp_ms : Nat) (_training_samples : Nat) (_training_accuracy : ℚ) :
    TrackerState :=
  let h := getHealth st model_id
  let h := { h with
    last_training_timestamp_ms := timestamp_ms
    last_retrain_timestamp_ms := timestamp_ms
    retrain_count := h.retrain_count + 1
    is_degrading := false
    needs_retraining := false }
  { st with model_health := alInsert st.model_health model_id h }

/-- `ComputeHealthMetrics` (lines 81-112): recompute `current_accuracy`
from the trailing window, optionally the trends and `is_degrading`, then
set `needs_retraining` to the conjunction of the sample, cooldown and
(accuracy-floor or degradation) conditions, and store the result. -/
def computeHealthMetrics (st : TrackerState) (model_id : String) (now : Nat) :
    ModelHealthMetrics × TrackerState :=
  let h0 := getHealth st model_id
  let current := computeMetricsFromEvents (alFindD st.model_events model_id [])
    (sub64 now st.config.window_duration_ms) now
  let h1 := { h0 with current_accuracy := current.accuracy_rate }
  let h2 :=
    if st.config.enable_trend_analysis then
      { h1 with
        accuracy_trend_1h := computeAccuracyTrend st model_id 3600000 now
        accuracy_trend_7d := computeAccuracyTrend st model_id 604800000 now
        is_degrading := isAccuracyDegrading st model_id now }
    else h1
  let accuracy_below_threshold :=
    qlt h2.current_accuracy st.config.minimum_accuracy_threshold
  let significant_degradation :=
    h2.is_degrading &&
      qlt h2.accuracy_trend_1h (-(st.config.accuracy_degradation_threshold))
  let enough_time_passed :=
    decide (st.config.min_time_between_retrains_ms ≤
      sub64 now h2.last_retrain_timestamp_ms)
  let enough_samples :=
    decide (st.config.min_predictions_for_decision ≤ current.total_predictions)
  let h3 := { h2 with needs_retraining :=
    enough_samples && enough_time_passed &&
      (accuracy_below_threshold || significant_degradation) }
  (h3, { st with model_health := alInsert st.model_health model_id h3 })

/-- `ShouldRetrain` (lines 114-117). -/
def shouldRetrain (st : TrackerState) (model_id : String) (now : Nat) :
    Bool × TrackerState :=
  let r := computeHealthMetrics st model_id now
  (r.1.needs_retraining, r.2)

/-! ## `AdaptiveRetrainingManager`

State-passing model of the request-side of
src/src/learned_index/adaptive/adaptive_retraining_manager.cpp.  The
`std::priority_queue` is modelled by its contents (a list, pushes
appending); the heap ordering is irrelevant to the claims below, which
only concern membership and size. -/

/-- `RetrainingRequest`. -/
structure RetrainingRequest where
  model_id : String
  sst_file_path : String
  timestamp_ms : Nat
  current_accuracy : ℚ
  trigger_reason : String
  deriving Repr, DecidableEq

/-- `AdaptiveRetrainingManager::Config` with the header's defaults. -/
structure RetrainingManagerConfig where
  enable_adaptive_retraining : Bool := true
  monitoring_interval_ms : Nat := 30000
  max_concurrent_retraining : Nat := 2
  retraining_queue_size : Nat := 100
  enable_background_thread : Bool := true
  enable_priority_retraining : Bool := true
  emergency_retraining_threshold : Nat := 60000
  enable_online_data_collection : Bool := true
  min_new_samples_for_retrain : Nat := 1000
  sample_collection_ratio : ℚ := 1 / 10
  deriving Repr, DecidableEq

/-- The retraining manager's state: its queue, in-flight set, counters,
and the tracker it consults. -/
structure RetrainingManagerState where
  config : RetrainingManagerConfig
  tracker : TrackerState
  retraining_queue : List RetrainingRequest := []
  models_being_retrained : List String := []
  stats_total_requests : Nat := 0
  stats_manual_triggers : Nat := 0
  stats_automatic_triggers : Nat := 0
  deriving Repr, DecidableEq

/-- `AdaptiveRetrainingManager::RequestRetraining`
(adaptive_retraining_manager.cpp, lines 92-132): rejected when adaptive
retraining is disabled, when the queue is full
(`size >= retraining_queue_size`), or when `model_id` is in the in-flight
set; otherwise consult the tracker for the current accuracy, enqueue, and
count the trigger. -/
def requestRetraining (st : RetrainingManagerState) (model_id : String)
    (sst_file_path : String) (reason : String) (now : Nat) :
    Bool × RetrainingManagerState :=
  if ¬ (st.config.enable_adaptive_retraining = true) then (false, st)
  else if st.config.retraining_queue_size ≤ st.retraining_queue.length then
    (false, st)
  else if st.models_being_retrained.contains model_id then (false, st)
  else
    let r := computeHealthMetrics st.tracker model_id now
    let request : RetrainingRequest :=
      { model_id := model_id, sst_file_path := sst_file_path,
        timestamp_ms := now, current_accuracy := r.1.current_accuracy,
        trigger_reason := reason }
    (true, { st with
      tracker := r.2
      retraining_queue := st.retraining_queue ++ [request]
      stats_total_requests := st.stats_total_requests + 1
      stats_manual_triggers :=
        if reason == "manual" then st.stats_manual_triggers + 1
        else st.stats_manual_triggers
      stats_automatic_triggers :=
        if reason == "manual" then st.stats_automatic_triggers
        else st.stats_automatic_triggers + 1 })

/-- `AdaptiveRetrainingManager::RequestEmergencyRetraining` (lines
134-157): consults the tracker, stamps the request with timestamp `0` so
it sorts first, enqueues, counts, and returns `true` — with no
queue-full, no enable, and no in-flight check. -/
def requestEmergencyRetraining (st : RetrainingManagerState)
    (model_id : String) (sst_file_path : String) (now : Nat) :
    Bool × RetrainingManagerState :=
  let r := computeHealthMetrics st.tracker model_id now
  let request : RetrainingRequest :=
    { model_id := model_id, sst_file_path := sst_file_path,
      timestamp_ms := 0, current_accuracy := r.1.current_accuracy,
      trigger_reason := "emergency" }
  (true, { st with
    tracker := r.2
    retraining_queue := st.retraining_queue ++ [request]
    stats_total_requests := st.stats_total_requests + 1
    stats_automatic_triggers := st.stats_automatic_triggers + 1 })

/-! ## `LinearModel` (src/src/learned_index/ml_model.cpp)

The closed-form least-squares trainer: normal equations solved by
Gaussian elimination with partial pivoting, over `ℚ`.  The index-based
in-place loops become a structural recursion: each step selects the pivot
row (first row attaining the maximal absolute leading coefficient, as the
strict-improvement scan does), eliminates the leading column of the
remaining rows (whose new leading entries are exactly `0` and are
dropped), and recurses; back substitution then reads the pivot rows in
reverse.  Recursion is fueled by the row count, which every step
decreases. -/

/-- The singularity threshold `1e-10` of `SolveLinearSystem`. -/
def SINGULARITY_EPS : ℚ := 1 / 10 ^ 10

/-- Index of the first row attaining the maximal absolute leading
coefficient (the `max_row` scan of lines 160-167: update only on strict
improvement). -/
def argmaxAbsHead (rows : List (List ℚ × ℚ)) : Nat :=
  (rows.enum.foldl
    (fun acc p =>
      if Rat.blt acc.2 (qabs (p.2.1.headD 0)) then (p.1, qabs (p.2.1.headD 0))
      else acc)
    (0, qabs ((rows.headD ([], 0)).1.headD 0))).1

/-- Swap the front row with the row at index `j` (the pivot swap of lines
169-173). -/
def swapTop (rows : List (List ℚ × ℚ)) (j : Nat) : List (List ℚ × ℚ) :=
  match rows with
  | [] => []
  | r0 :: rest =>
    if j = 0 then rows
    else
      match rows.getD j ([], 0) with
      | rj => rj :: (rest.set (j - 1) r0)

/-- Forward elimination with partial pivoting (the outer loop of
`SolveLinearSystem`, lines 160-188), returning the pivot rows, or `none`
when a pivot falls below `1e-10` (singular matrix).  Caveat of the
rational model: over `ℚ` an eliminated entry of a singular system is
exactly `0`, while the source's `double` elimination generally leaves a
rounding residue there that can exceed the `1e-10` threshold (for two
samples with key `1000004` the residue is one ulp of `2000008`, i.e.
`2^-32 > 1e-10`, and the C++ `Train` succeeds).  Theorems about
singularity detection are therefore stated only on inputs where the
`double` computation is exact — every matrix entry, quotient and product
a dyadic value within `2^53` — so that the two arithmetics coincide. -/
def forwardElim (fuel : Nat) (rows : List (List ℚ × ℚ)) :
    Option (List (List ℚ × ℚ)) :=
  match fuel, rows with
  | _, [] => some []
  | 0, _ :: _ => none
  | fuel + 1, _ :: _ =>
    let rows1 := swapTop rows (argmaxAbsHead rows)
    match rows1 with
    | [] => none
    | (pr, pb) :: rest =>
      let pivot := pr.headD 0
      if Rat.blt (qabs pivot) SINGULARITY_EPS then none
      else
        let rest1 := rest.map (fun rb =>
          let factor := rb.1.headD 0 / pivot
          ((rb.1.zipWith (fun a p => a - factor * p) pr).tail,
            rb.2 - factor * pb))
        (forwardElim fuel rest1).map (fun tl => (pr, pb) :: tl)

/-- Back substitution (lines 190-198): `x_i = (b_i - Σ_{j>i} a_ij x_j) / a_ii`. -/
def backSubst : List (List ℚ × ℚ) → List ℚ
  | [] => []
  | (row, b) :: rest =>
    let xs := backSubst rest
    (b - ((row.tail.zipWith (fun a x => a * x) xs).sum)) / row.headD 0 :: xs

/-- `LinearModel::SolveLinearSystem` (lines 154-201). -/
def solveLinearSystem (A : List (List ℚ)) (b : List ℚ) : Option (List ℚ) :=
  (forwardElim (A.zip b).length (A.zip b)).map backSubst

/-- `LinearModel::SolveLeastSquares` (lines 101-152): augment with a bias
column, form `XᵀX` and `Xᵀy`, solve; returns `(bias, weights)`. -/
def solveLeastSquares (m : Nat) (X : List (List ℚ)) (y : List Nat) :
    Option (ℚ × List ℚ) :=
  if X.length = 0 ∨ m = 0 then none
  else
    let X_aug := X.map (fun row => 1 :: row)
    let XTX := (List.range (m + 1)).map (fun i =>
      (List.range (m + 1)).map (fun j =>
        (X_aug.map (fun row => row.getD i 0 * row.getD j 0)).sum))
    let XTy := (List.range (m + 1)).map (fun i =>
      ((X_aug.zip y).map (fun p => p.1.getD i 0 * (p.2 : ℚ))).sum)
    match solveLinearSystem XTX XTy with
    | none => none
    | some params => some (params.headD 0, params.tail)

/-- `LinearModel` after construction/training. -/
structure LinearModel where
  feature_dimensions : Nat
  weights : List ℚ
  bias : ℚ
  training_accuracy : ℚ
  is_trained : Bool
  deriving Repr, DecidableEq

/-- `LinearModel::Predict` (lines 49-61): `0` when untrained or
mis-dimensioned; else `static_cast<uint64_t>(std::max(0.0, bias + Σ w·f))`. -/
def linearPredict (model : LinearModel) (features : List ℚ) : Nat :=
  if ¬ (model.is_trained = true) ∨ features.length ≠ model.feature_dimensions
  then 0
  else
    let prediction :=
      model.bias + ((model.weights.zipWith (fun w f => w * f) features).sum)
    (truncQ (qmax 0 prediction)).toNat

/-- `LinearModel::CalculateMSE` (lines 203-217). -/
def calculateMSE (model : LinearModel) (features : List (List ℚ))
    (targets : List Nat) : ℚ :=
  let errs := (features.zip targets).map (fun p =>
    ((linearPredict model p.1 : ℚ) - (p.2 : ℚ)) *
      ((linearPredict model p.1 : ℚ) - (p.2 : ℚ)))
  errs.sum / (features.length : ℚ)

/-- `LinearModel::CalculateVariance` (lines 219-233). -/
def calculateVariance (values : List ℚ) : ℚ :=
  if values = [] then 0
  else
    let mean := values.sum / (values.length : ℚ)
    ((values.map (fun v => (v - mean) * (v - mean))).sum) / (values.length : ℚ)

/-- `LinearModel::Train` (lines 19-47): validate shapes, solve the least
squares system (`false` on a singular system), then report the R²-style
training accuracy. -/
def linearModelTrain (feature_dimensions : Nat) (features : List (List ℚ))
    (targets : List Nat) : Option LinearModel :=
  if features = [] ∨ targets = [] ∨ features.length ≠ targets.length then none
  else if ¬ (features.all (fun f => f.length == feature_dimensions) = true) then
    none
  else
    match solveLeastSquares feature_dimensions features targets with
    | none => none
    | some bw =>
      let trained : LinearModel :=
        { feature_dimensions := feature_dimensions
          weights := bw.2
          bias := bw.1
          training_accuracy := 0
          is_trained := true }
      let accuracy :=
        1 - calculateMSE trained features targets /
          calculateVariance (targets.map (fun t => (t : ℚ)))
      some { trained with training_accuracy := accuracy }

/-! ## Claim-side predicates and concrete instances -/

/-- The number of prediction events in the trailing window
`[now - window_duration_ms, now]` — the claim-side reading of "events in
the current window". -/
def eventCountInWindow (st : TrackerState) (model_id : String) (now : Nat) :
    Nat :=
  ((alFindD st.model_events model_id []).filter
    (fun e => decide (sub64 now st.config.window_duration_ms ≤ e.timestamp_ms ∧
      e.timestamp_ms ≤ now))).length

/-- Per-file statistics consistency: every recorded query is exactly one of
success or fallback. -/
def statsConsistent (st : ManagerState) : Prop :=
  ∀ p ∈ st.file_stats,
    p.2.total_queries = p.2.successful_predictions + p.2.fallback_queries

/-- Cache well-formedness: the access-order vector is a duplicate-free
enumeration of the cached paths, and the cache is within its bound. -/
def cacheWF (st : ManagerState) : Prop :=
  (st.model_cache.map Prod.fst).Perm st.access_order ∧
  st.access_order.Nodup ∧
  st.model_cache.length ≤ st.options.max_cache_size

/-- The sample set of end-to-end scenario 1:
`{(0,0), (100,0), ..., (900,0), (1000,1), ..., (1900,1)}`. -/
def scenario1TrainingData : List (Nat × Nat) :=
  (List.range 20).map (fun i => (100 * i, if i < 10 then 0 else 1))

/-- A trained model whose stored confidences (`0.1`) sit below the default
threshold (`0.8`): parameters flat at zero, two block predictions. -/
def lowConfidenceModel : LearnedIndexBlockQ :=
  { parameters := [0, 0]
    parameter_count := 2
    block_predictions :=
      [{ block_index := 0, predicted_start_key := 0, predicted_end_key := 4,
         confidence := 1 / 10 },
       { block_index := 1, predicted_start_key := 5, predicted_end_key := 9,
         confidence := 1 / 10 }] }

/-- A manager state caching `lowConfidenceModel` under `"f.sst"`, default
options. -/
def lowConfidenceState : ManagerState :=
  { options := {}
    model_cache :=
      [("f.sst", { model := lowConfidenceModel, last_access_time := 0,
                   access_count := 1, file_path := "f.sst" })]
    access_order := ["f.sst"] }

/-- A minimal `LearnedIndexBlock` (no parameters, no predictions) with its
checksum freshly computed, hence `IsValid`. -/
def validRecord : LearnedIndexBlock :=
  LearnedIndexBlock.updateChecksum
    { magic_number := LEARNED_INDEX_MAGIC_NUMBER
      version := LEARNED_INDEX_VERSION
      model_type := MODEL_TYPE_LINEAR
      feature_dimensions := 1
      parameter_count := 0
      parameters := []
      metadata := ⟨0, 0, 0, 0, 0⟩
      block_predictions := []
      checksum := 0 }

/-- Tracker configuration for the retrain-flag scenario: 1-second windows,
a single prediction suffices for a decision, no retrain cooldown. -/
def flagConfig : TrackerConfig :=
  { window_duration_ms := 1000
    min_predictions_for_decision := 1
    min_time_between_retrains_ms := 0 }

/-- One incorrect prediction at `t = 1500`. -/
def flagEvent : PredictionEvent :=
  { timestamp_ms := 1500, was_correct := false }

/-- Tracker after recording the incorrect prediction. -/
def flagState1 : TrackerState :=
  recordPrediction (initTracker flagConfig) "m" flagEvent 1500

/-- Tracker after a health recomputation at `t = 2000` (window still
contains the event, accuracy 0). -/
def flagState2 : TrackerState :=
  (computeHealthMetrics flagState1 "m" 2000).2

/-- Tracker after a further health recomputation at `t = 1000000` (window
now empty). -/
def flagState3 : TrackerState :=
  (computeHealthMetrics flagState2 "m" 1000000).2

/-- A tracker state whose model `"m"` already has `needs_retraining`
set. -/
def flaggedTracker : TrackerState :=
  { config := {}
    model_health := [("m", { model_id := "m", needs_retraining := true,
                             is_degrading := true, retrain_count := 3 })] }

/-- A retraining-manager state with `"m"` in the in-flight set and a full
queue of capacity 1. -/
def inflightManager : RetrainingManagerState :=
  { config := { retraining_queue_size := 1 }
    tracker := initTracker {}
    retraining_queue :=
      [{ model_id := "other", sst_file_path := "other.sst", timestamp_ms := 7,
         current_accuracy := 0, trigger_reason := "manual" }]
    models_being_retrained := ["m"] }

/-! ### Round-trip lemmas for the byte encodings -/

theorem natOfBytes_bytesOfU32 (x : Nat) (h : x < 2 ^ 32) :
    natOfBytes (bytesOfU32 x) = x := by
  simp only [natOfBytes, bytesOfU32, List.foldr]
  omega

theorem natOfBytes_bytesOfU64 (x : Nat) (h : x < 2 ^ 64) :
    natOfBytes (bytesOfU64 x) = x := by
  simp only [natOfBytes, bytesOfU64, List.foldr]
  omega

theorem readBytes_append (k : Nat) (l r : List Nat) (h : l.length = k) :
    readBytes k (l ++ r) = some (l, r) := by
  subst h
  simp [readBytes, List.take_left, List.drop_left]

theorem readU32_append (x : Nat) (r : List Nat) (h : x < 2 ^ 32) :
    readU32 (bytesOfU32 x ++ r) = some (x, r) := by
  rw [readU32, readBytes_append 4 (bytesOfU32 x) r (by simp [bytesOfU32])]
  simp [natOfBytes_bytesOfU32 x h]

theorem readU64_append (x : Nat) (r : List Nat) (h : x < 2 ^ 64) :
    readU64 (bytesOfU64 x ++ r) = some (x, r) := by
  rw [readU64, readBytes_append 8 (bytesOfU64 x) r (by simp [bytesOfU64])]
  simp [natOfBytes_bytesOfU64 x h]

theorem readU64List_append (ps : List Nat) (r : List Nat)
    (h : ∀ p ∈ ps, p < 2 ^ 64) :
    readU64List ps.length ((ps.map bytesOfU64).flatten ++ r) = some (ps, r) := by
  induction ps with
  | nil => simp [readU64List]
  | cons p ps ih =>
    have hp : p < 2 ^ 64 := h p (by simp)
    have hps : ∀ q ∈ ps, q < 2 ^ 64 := fun q hq => h q (by simp [hq])
    simp only [List.length_cons, List.map_cons, List.flatten_cons,
      List.append_assoc, readU64List]
    rw [readU64_append p _ hp]
    simp [ih hps]

namespace LearnedIndexBlock

theorem readPredictions_append (ps : List BlockPrediction) (r : List Nat)
    (h : ∀ p ∈ ps, p.block_index < 2 ^ 32 ∧ p.predicted_start_key < 2 ^ 64 ∧
      p.predicted_end_key < 2 ^ 64 ∧ p.confidence_bits < 2 ^ 64) :
    readPredictions ps.length ((ps.map serializePrediction).flatten ++ r) =
      some (ps, r) := by
  induction ps with
  | nil => simp [readPredictions]
  | cons p ps ih =>
    obtain ⟨h1, h2, h3, h4⟩ := h p (by simp)
    have hps := fun q hq => h q (List.mem_cons_of_mem _ hq)
    simp only [List.length_cons, List.map_cons, List.flatten_cons,
      serializePrediction, List.append_assoc, readPredictions]
    rw [readU32_append _ _ h1]
    simp only [Option.bind_eq_bind, Option.some_bind]
    rw [readU64_append _ _ h2]
    simp only [Option.some_bind]
    rw [readU64_append _ _ h3]
    simp only [Option.some_bind]
    rw [readU64_append _ _ h4]
    simp only [Option.some_bind]
    simp [ih hps]

theorem serialize_length_ge (b : LearnedIndexBlock) :
    8 ≤ (serialize b).length := by
  simp [serialize, bytesOfU32, bytesOfU64, List.length_append]

/-- Decomposed form of `isValid`. -/
theorem isValid_iff (b : LearnedIndexBlock) :
    b.isValid = true ↔
      b.magic_number = LEARNED_INDEX_MAGIC_NUMBER ∧
      b.version = LEARNED_INDEX_VERSION ∧
      b.parameter_count = b.parameters.length ∧
      b.verifyChecksum = true := by
  simp [isValid, Bool.and_eq_true, beq_iff_eq, and_assoc]

/-- `Deserialize` on the serialized fields of `b` followed by *any* 4-byte
block: it succeeds and reconstructs `b` with whatever checksum those last
4 bytes spell — the checksum is read, never verified. -/
theorem deserialize_fields (b : LearnedIndexBlock) (data : List Nat)
    (hwf : b.wf)
    (hm : b.magic_number = LEARNED_INDEX_MAGIC_NUMBER)
    (hver : b.version = LEARNED_INDEX_VERSION)
    (hpc : b.parameter_count = b.parameters.length)
    (ck4 : List Nat) (h4 : ck4.length = 4)
    (hdata : data =
      bytesOfU32 b.magic_number ++ (bytesOfU32 b.version ++
      (bytesOfU32 b.model_type ++ (bytesOfU32 b.feature_dimensions ++
      (bytesOfU32 b.parameter_count ++
      ((b.parameters.map bytesOfU64).flatten ++
      (bytesOfU64 b.metadata.training_samples ++
      (bytesOfU64 b.metadata.training_accuracy_bits ++
      (bytesOfU64 b.metadata.validation_accuracy_bits ++
      (bytesOfU64 b.metadata.training_timestamp ++
      (bytesOfU64 b.metadata.last_update_timestamp ++
      (bytesOfU32 b.block_predictions.length ++
      ((b.block_predictions.map serializePrediction).flatten ++
      ck4))))))))))))) :
    deserialize data = some { b with checksum := natOfBytes ck4 } := by
  obtain ⟨hw1, hw2, hw3, hw4, hw5, hw6, hw7, hw8, hw9,
    hw10, hw11, hw12, hw13, hw14⟩ := hwf
  have hlen : ¬ data.length < 8 := by
    rw [hdata]
    simp [bytesOfU32, List.length_append]
  rw [deserialize, if_neg hlen, hdata]
  rw [readU32_append _ _ hw1]
  rw [Option.some_bind]
  rw [if_neg (by simp [hm])]
  rw [readU32_append _ _ hw2]
  rw [Option.some_bind]
  rw [if_neg (by simp [hver])]
  rw [readU32_append _ _ hw3]
  rw [Option.some_bind]
  rw [readU32_append _ _ hw4]
  rw [Option.some_bind]
  rw [readU32_append _ _ hw5]
  rw [Option.some_bind]
  rw [hpc, readU64List_append b.parameters _ (fun p hp => hw6 p hp)]
  rw [Option.some_bind]
  rw [readU64_append _ _ hw7]
  rw [Option.some_bind]
  rw [readU64_append _ _ hw8]
  rw [Option.some_bind]
  rw [readU64_append _ _ hw9]
  rw [Option.some_bind]
  rw [readU64_append _ _ hw10]
  rw [Option.some_bind]
  rw [readU64_append _ _ hw11]
  rw [Option.some_bind]
  rw [readU32_append _ _ hw12]
  rw [Option.some_bind]
  rw [readPredictions_append b.block_predictions _ hw13]
  rw [Option.some_bind]
  have hck : readU32 ck4 = some (natOfBytes ck4, []) := by
    have h0 := readBytes_append 4 ck4 [] h4
    rw [List.append_nil] at h0
    rw [readU32, h0]
    rfl
  rw [hck, Option.map_some']

/-- The right-associated spelling of `Serialize`'s output. -/
theorem serialize_decomp (b : LearnedIndexBlock) :
    serialize b =
      bytesOfU32 b.magic_number ++ (bytesOfU32 b.version ++
      (bytesOfU32 b.model_type ++ (bytesOfU32 b.feature_dimensions ++
      (bytesOfU32 b.parameter_count ++
      ((b.parameters.map bytesOfU64).flatten ++
      (bytesOfU64 b.metadata.training_samples ++
      (bytesOfU64 b.metadata.training_accuracy_bits ++
      (bytesOfU64 b.metadata.validation_accuracy_bits ++
      (bytesOfU64 b.metadata.training_timestamp ++
      (bytesOfU64 b.metadata.last_update_timestamp ++
      (bytesOfU32 b.block_predictions.length ++
      ((b.block_predictions.map serializePrediction).flatten ++
      bytesOfU32 b.checksum)))))))))))) := by
  rw [serialize]
  simp only [List.append_assoc]

/-- Round trip: for every well-formed record whose header fields pass
`IsValid`'s structural checks, `Deserialize (Serialize b)` reconstructs
`b` exactly. -/
theorem deserialize_serialize (b : LearnedIndexBlock)
    (hwf : b.wf)
    (hm : b.magic_number = LEARNED_INDEX_MAGIC_NUMBER)
    (hver : b.version = LEARNED_INDEX_VERSION)
    (hpc : b.parameter_count = b.parameters.length) :
    deserialize (serialize b) = some b := by
  have hw14 : b.checksum < 2 ^ 32 := hwf.2.2.2.2.2.2.2.2.2.2.2.2.2
  have h := deserialize_fields b (serialize b) hwf hm hver hpc
    (bytesOfU32 b.checksum) rfl (serialize_decomp b)
  rw [h, natOfBytes_bytesOfU32 _ hw14]

/-- Overwriting one byte inside an append, past the first part. -/
theorem set_append_of_le {α : Type} (l₁ l₂ : List α) (i : Nat) (a : α)
    (h : l₁.length ≤ i) :
    (l₁ ++ l₂).set i a = l₁ ++ l₂.set (i - l₁.length) a := by
  induction l₁ generalizing i with
  | nil => simp
  | cons x t ih =>
    cases i with
    | zero => simp at h
    | succ j =>
      simp only [List.cons_append, List.set, List.length_cons,
        Nat.succ_sub_succ, List.append_eq]
      rw [ih j (by simpa using h)]

/-- A single-byte corruption anywhere in the trailing 4-byte checksum field
of a serialized record is still accepted by `Deserialize`: the function
reads the corrupted checksum into the record and reports success. -/
theorem deserialize_corrupt_checksum (b : LearnedIndexBlock)
    (hwf : b.wf)
    (hm : b.magic_number = LEARNED_INDEX_MAGIC_NUMBER)
    (hver : b.version = LEARNED_INDEX_VERSION)
    (hpc : b.parameter_count = b.parameters.length)
    (i v : Nat)
    (hi1 : (serialize b).length - 4 ≤ i)
    (_hi2 : i < (serialize b).length) :
    (deserialize (corruptAt (serialize b) i v)).isSome = true := by
  obtain ⟨P, hP1, hP2⟩ :
      ∃ P : List Nat, serialize b = P ++ bytesOfU32 b.checksum ∧
        ∀ ck4 : List Nat, P ++ ck4 =
          bytesOfU32 b.magic_number ++ (bytesOfU32 b.version ++
          (bytesOfU32 b.model_type ++ (bytesOfU32 b.feature_dimensions ++
          (bytesOfU32 b.parameter_count ++
          ((b.parameters.map bytesOfU64).flatten ++
          (bytesOfU64 b.metadata.training_samples ++
          (bytesOfU64 b.metadata.training_accuracy_bits ++
          (bytesOfU64 b.metadata.validation_accuracy_bits ++
          (bytesOfU64 b.metadata.training_timestamp ++
          (bytesOfU64 b.metadata.last_update_timestamp ++
          (bytesOfU32 b.block_predictions.length ++
          ((b.block_predictions.map serializePrediction).flatten ++
          ck4)))))))))))) := by
    refine ⟨bytesOfU32 b.magic_number ++ bytesOfU32 b.version ++
      bytesOfU32 b.model_type ++ bytesOfU32 b.feature_dimensions ++
      bytesOfU32 b.parameter_count ++
      (b.parameters.map bytesOfU64).flatten ++
      bytesOfU64 b.metadata.training_samples ++
      bytesOfU64 b.metadata.training_accuracy_bits ++
      bytesOfU64 b.metadata.validation_accuracy_bits ++
      bytesOfU64 b.metadata.training_timestamp ++
      bytesOfU64 b.metadata.last_update_timestamp ++
      bytesOfU32 b.block_predictions.length ++
      (b.block_predictions.map serializePrediction).flatten, rfl, ?_⟩
    intro ck4
    simp [List.append_assoc]
  have hlenP : (serialize b).length = P.length + 4 := by
    rw [hP1]
    simp [bytesOfU32]
  have hle : P.length ≤ i := by omega
  have hset : corruptAt (serialize b) i v =
      P ++ (bytesOfU32 b.checksum).set (i - P.length) v := by
    rw [corruptAt, hP1, set_append_of_le _ _ _ _ hle]
  have h4 : ((bytesOfU32 b.checksum).set (i - P.length) v).length = 4 := by
    simp [bytesOfU32]
  have h := deserialize_fields b (corruptAt (serialize b) i v) hwf hm hver hpc
    ((bytesOfU32 b.checksum).set (i - P.length) v) h4
    (by rw [hset, hP2])
  rw [h]
  rfl

end LearnedIndexBlock

/-! ## Helper lemmas -/

theorem qlt_iff (a b : ℚ) : qlt a b = true ↔ a < b := Iff.rfl

theorem alFind?_alInsert_self {β : Type} (l : List (String × β)) (k : String)
    (v : β) : alFind? (alInsert l k v) k = some v := by
  induction l with
  | nil => simp [alInsert, alFind?]
  | cons p rest ih =>
    by_cases h : p.1 = k
    · simp [alInsert, h, alFind?]
    · simp [alInsert, h, alFind?, ih]

theorem alFind?_alInsert_ne {β : Type} (l : List (String × β)) (k k' : String)
    (v : β) (h : k' ≠ k) : alFind? (alInsert l k v) k' = alFind? l k' := by
  induction l with
  | nil => simp [alInsert, alFind?, Ne.symm h]
  | cons p rest ih =>
    by_cases hp : p.1 = k
    · subst hp
      simp [alInsert, alFind?, Ne.symm h]
    · simp [alInsert, hp, alFind?, ih]

theorem alFindD_alInsert_self {β : Type} (l : List (String × β)) (k : String)
    (v d : β) : alFindD (alInsert l k v) k d = v := by
  simp [alFindD, alFind?_alInsert_self]

theorem alFindD_alInsert_ne {β : Type} (l : List (String × β)) (k k' : String)
    (v d : β) (h : k' ≠ k) : alFindD (alInsert l k v) k' d = alFindD l k' d := by
  simp [alFindD, alFind?_alInsert_ne _ _ _ _ h]

theorem alFind?_mem {β : Type} {l : List (String × β)} {k : String} {v : β}
    (h : alFind? l k = some v) : (k, v) ∈ l := by
  induction l with
  | nil => simp [alFind?] at h
  | cons p rest ih =>
    obtain ⟨a, b⟩ := p
    by_cases hp : a = k
    · subst hp
      simp only [alFind?, beq_self_eq_true, if_true, Option.some.injEq] at h
      subst h
      exact List.mem_cons_self _ _
    · simp only [alFind?, beq_iff_eq, hp, if_false] at h
      exact List.mem_cons_of_mem _ (ih h)

theorem mem_alInsert {β : Type} {l : List (String × β)} {k : String} {v : β}
    {q : String × β} (h : q ∈ alInsert l k v) : q = (k, v) ∨ q ∈ l := by
  induction l with
  | nil => simpa [alInsert] using h
  | cons p rest ih =>
    by_cases hp : p.1 = k
    · simp only [alInsert, beq_iff_eq, hp, if_true, List.mem_cons] at h
      rcases h with h | h
      · exact Or.inl h
      · exact Or.inr (List.mem_cons_of_mem _ h)
    · simp only [alInsert, beq_iff_eq, hp, if_false, List.mem_cons] at h
      rcases h with h | h
      · exact Or.inr (by simp [h])
      · rcases ih h with h' | h'
        · exact Or.inl h'
        · exact Or.inr (List.mem_cons_of_mem _ h')

/-! ## Claim C2 — end-to-end prediction scenario 1 -/

/-- Claim C2, counterexample.  After training on scenario 1's sample set,
`PredictBlockIndex(1450)` returns block `0`, not block `1` as claimed: the
least-squares line `block = key/1330 - 3/14` evaluates to `≈ 0.876` at
`1450`, which the `static_cast<int>` truncation sends to `0`. -/
theorem scenario1_predict_1450_counterexample :
    (trainLinearModel scenario1TrainingData 0).isSome = true ∧
    ((trainLinearModel scenario1TrainingData 0).getD
      {}).predictBlockIndex 1450 = 0 := by
  decide

/-- Claim C2 (amended): after training a linear model on the sample set
`{(0,0), ..., (900,0), (1000,1), ..., (1900,1)}`, predicting key 450
returns block 0, and predicting key 1450 also returns block 0 (the fitted
line's value at 1450, ≈ 0.876, truncates to 0). -/
theorem scenario1_predictions :
    (trainLinearModel scenario1TrainingData 0).isSome = true ∧
    ((trainLinearModel scenario1TrainingData 0).getD
      {}).predictBlockIndex 450 = 0 ∧
    ((trainLinearModel scenario1TrainingData 0).getD
      {}).predictBlockIndex 1450 = 0 := by
  decide

/-! ## Claim C9 — emergency retraining bypasses -/

/-- Claim C9, counterexample.  With `"m"` in the in-flight set,
`RequestEmergencyRetraining("m", ...)` is *not* rejected: it returns `true`
and enqueues a second request — the function never consults
`models_being_retrained_`. -/
theorem emergency_inflight_counterexample :
    inflightManager.models_being_retrained.contains "m" = true ∧
    (requestEmergencyRetraining inflightManager "m" "f.sst" 5).1 = true ∧
    (requestEmergencyRetraining inflightManager "m" "f.sst"
      5).2.retraining_queue.length = 2 := by
  decide

/-- Claim C9 (amended): `RequestEmergencyRetraining` bypasses *both* the
queue-full check *and* the in-flight dedup: for every state — queue full
or not, `file_id` in flight or not — it returns `true` and appends exactly
its emergency request (timestamp forced to 0 so it sorts first). -/
theorem emergency_always_enqueues (st : RetrainingManagerState)
    (model_id sst_file_path : String) (now : Nat) :
    (requestEmergencyRetraining st model_id sst_file_path now).1 = true ∧
    (requestEmergencyRetraining st model_id sst_file_path
      now).2.retraining_queue =
      st.retraining_queue ++
        [{ model_id := model_id, sst_file_path := sst_file_path,
           timestamp_ms := 0,
           current_accuracy :=
             (computeHealthMetrics st.tracker model_id now).1.current_accuracy,
           trigger_reason := "emergency" }] := by
  constructor <;> rfl

/-! ## Claim C8 — a retrain clears the flag and bumps the count -/

/-- Claim C8: for every model whose `needs_retraining` flag is true, a
subsequent `RecordTrainingEvent` leaves `needs_retraining = false` and
`is_degrading = false`, and increments `retrain_count` by exactly 1. -/
theorem record_training_event_resets (st : TrackerState) (model_id : String)
    (timestamp_ms samples : Nat) (accuracy : ℚ)
    (_h : (getHealth st model_id).needs_retraining = true) :
    (getHealth (recordTrainingEvent st model_id timestamp_ms samples accuracy)
      model_id).needs_retraining = false ∧
    (getHealth (recordTrainingEvent st model_id timestamp_ms samples accuracy)
      model_id).is_degrading = false ∧
    (getHealth (recordTrainingEvent st model_id timestamp_ms samples accuracy)
      model_id).retrain_count = (getHealth st model_id).retrain_count + 1 := by
  unfold recordTrainingEvent getHealth
  simp [alFindD_alInsert_self]

/-- Witness for C8 at a concrete flagged tracker. -/
theorem record_training_event_resets_witness :
    (getHealth (recordTrainingEvent flaggedTracker "m" 99 10 1)
      "m").needs_retraining = false ∧
    (getHealth (recordTrainingEvent flaggedTracker "m" 99 10 1)
      "m").is_degrading = false ∧
    (getHealth (recordTrainingEvent flaggedTracker "m" 99 10 1)
      "m").retrain_count = (getHealth flaggedTracker "m").retrain_count + 1 :=
  record_training_event_resets flaggedTracker "m" 99 10 1 (by decide)

/-! ## Claim C7 — what clears `needs_retraining` -/

/-- Claim C7, counterexample.  `needs_retraining` is cleared *without* any
`RecordTrainingEvent`: after one incorrect prediction, a health
recomputation at `t = 2000` sets the flag; a later health recomputation at
`t = 1000000` (trailing window now empty, so the sample condition fails)
clears it again. -/
theorem compute_health_clears_flag_counterexample :
    (getHealth flagState2 "m").needs_retraining = true ∧
    (getHealth flagState3 "m").needs_retraining = false := by
  decide

/-- Claim C7 (amended): `needs_retraining` is cleared by successful-retrain
bookkeeping (`RecordTrainingEvent`) but *also* by `ComputeHealthMetrics`,
which recomputes the flag from current conditions on every call; the flag
does not latch.  `RecordPrediction` alone never changes any model's
flag. -/
theorem retrain_flag_transitions :
    (∀ (st : TrackerState) (model_id : String) (event : PredictionEvent)
      (now : Nat) (other : String),
      (getHealth (recordPrediction st model_id event now)
        other).needs_retraining = (getHealth st other).needs_retraining) ∧
    (∀ (st : TrackerState) (model_id : String) (timestamp_ms samples : Nat)
      (accuracy : ℚ),
      (getHealth (recordTrainingEvent st model_id timestamp_ms samples
        accuracy) model_id).needs_retraining = false) := by
  constructor
  · intro st model_id event now other
    have hmh : (recordPrediction st model_id event now).model_health =
        alInsert st.model_health model_id
          { getHealth st model_id with
            total_queries_served :=
              (getHealth st model_id).total_queries_served + 1 } := by
      simp only [recordPrediction, updateWindowedMetrics, getHealth]
      split <;> rfl
    by_cases h : other = model_id
    · subst h
      simp [getHealth, hmh, alFindD_alInsert_self]
    · simp [getHealth, hmh, alFindD_alInsert_ne _ _ _ _ _ h]
  · intro st model_id timestamp_ms samples accuracy
    unfold recordTrainingEvent getHealth
    simp [alFindD_alInsert_self]

/-! ## Claim C4 — low-confidence predictions -/

theorem getStats_updateStats_false (st : ManagerState) (path : String)
    (error : ℚ) (now : Nat) :
    getStats (updateStats st path false error now) path =
      { getStats st path with
        total_queries := (getStats st path).total_queries + 1
        fallback_queries := (getStats st path).fallback_queries + 1
        last_update_timestamp := now } := by
  unfold updateStats getStats
  simp [alFindD_alInsert_self]

/-- Claim C4, counterexample.  With a cached model whose confidence (`0.1`)
is below the default threshold (`0.8`), `PredictBlockIndex` does *not*
return the model's predicted block (`0`): it returns the fallback sentinel
`-1` (while it does record the query as a fallback). -/
theorem predict_low_confidence_counterexample :
    lowConfidenceModel.predictBlockIndex 7 = 0 ∧
    qlt (lowConfidenceModel.getPredictionConfidence 7)
      lowConfidenceState.options.confidence_threshold = true ∧
    (predictBlockIndexM lowConfidenceState "f.sst" 7 1).1 = -1 ∧
    (predictBlockIndexM lowConfidenceState "f.sst" 7 1).1 ≠
      lowConfidenceModel.predictBlockIndex 7 ∧
    (getStats (predictBlockIndexM lowConfidenceState "f.sst" 7 1).2
      "f.sst").fallback_queries = 1 := by
  decide

/-- Claim C4 (amended): for every cached file and key, when the model's
confidence is below `confidence_threshold` the prediction call records the
query as a fallback in the per-file statistics (exactly one more fallback,
one more total, successes unchanged) but returns the sentinel `-1` instead
of the model's predicted block — substituting the fallback signal is the
store's, not the caller's, decision. -/
theorem predict_low_confidence_fallback (st : ManagerState) (path : String)
    (cm : CachedModel) (key now : Nat)
    (hen : st.options.enabled = true)
    (hcm : alFind? st.model_cache path = some cm)
    (hconf : qlt (cm.model.getPredictionConfidence key)
      st.options.confidence_threshold = true) :
    (predictBlockIndexM st path key now).1 = -1 ∧
    (getStats (predictBlockIndexM st path key now).2 path).fallback_queries =
      (getStats st path).fallback_queries + 1 ∧
    (getStats (predictBlockIndexM st path key now).2 path).total_queries =
      (getStats st path).total_queries + 1 ∧
    (getStats (predictBlockIndexM st path key now).2
      path).successful_predictions =
      (getStats st path).successful_predictions := by
  have hm : predictBlockIndexM st path key now =
      (-1, updateStats
        { st with model_cache :=
                    alInsert st.model_cache path
                      { cm with last_access_time := now,
                                access_count := cm.access_count + 1 } }
        path false 0 now) := by
    unfold predictBlockIndexM predictHit
    rw [if_neg (by simp [hen]), hcm]
    dsimp only
    rw [if_pos hconf]
  have hst :
      getStats
        { st with model_cache :=
                    alInsert st.model_cache path
                      { cm with last_access_time := now,
                                access_count := cm.access_count + 1 } } path =
      getStats st path := rfl
  rw [hm]
  refine ⟨rfl, ?_, ?_, ?_⟩ <;>
    rw [getStats_updateStats_false, hst]

/-- Witness for C4 at the concrete low-confidence state. -/
theorem predict_low_confidence_fallback_witness :
    (predictBlockIndexM lowConfidenceState "f.sst" 7 1).1 = -1 ∧
    (getStats (predictBlockIndexM lowConfidenceState "f.sst" 7 1).2
      "f.sst").fallback_queries =
      (getStats lowConfidenceState "f.sst").fallback_queries + 1 ∧
    (getStats (predictBlockIndexM lowConfidenceState "f.sst" 7 1).2
      "f.sst").total_queries =
      (getStats lowConfidenceState "f.sst").total_queries + 1 ∧
    (getStats (predictBlockIndexM lowConfidenceState "f.sst" 7 1).2
      "f.sst").successful_predictions =
      (getStats lowConfidenceState "f.sst").successful_predictions :=
  predict_low_confidence_fallback lowConfidenceState "f.sst"
    { model := lowConfidenceModel, last_access_time := 0, access_count := 1,
      file_path := "f.sst" }
    7 1 (by decide) (by decide) (by decide)

/-! ## Claim C6 — the retraining decision -/

theorem computeMetricsFromEvents_total (evs : List PredictionEvent)
    (s e : Nat) :
    (computeMetricsFromEvents evs s e).total_predictions =
      (evs.filter
        (fun ev => decide (s ≤ ev.timestamp_ms ∧ ev.timestamp_ms ≤ e))).length := by
  unfold computeMetricsFromEvents
  dsimp only
  split <;> rfl

/-- Claim C6: `ComputeHealthMetrics` sets `needs_retraining = true` iff the
trailing window holds at least `min_predictions_for_decision` events, at
least `min_time_between_retrains_ms` has elapsed since the last retrain
timestamp, and either the recomputed accuracy is below
`minimum_accuracy_threshold` or the model is degrading with its 1-hour
trend below minus the degradation threshold. -/
theorem needs_retraining_iff (st : TrackerState) (model_id : String)
    (now : Nat) :
    (computeHealthMetrics st model_id now).1.needs_retraining = true ↔
      (st.config.min_predictions_for_decision ≤
        eventCountInWindow st model_id now ∧
       st.config.min_time_between_retrains_ms ≤
         sub64 now
           (computeHealthMetrics st model_id now).1.last_retrain_timestamp_ms ∧
       ((computeHealthMetrics st model_id now).1.current_accuracy <
          st.config.minimum_accuracy_threshold ∨
        ((computeHealthMetrics st model_id now).1.is_degrading = true ∧
         (computeHealthMetrics st model_id now).1.accuracy_trend_1h <
           -st.config.accuracy_degradation_threshold))) := by
  unfold computeHealthMetrics eventCountInWindow
  dsimp only
  split <;>
    simp [computeMetricsFromEvents_total, Bool.and_eq_true, Bool.or_eq_true,
      decide_eq_true_eq, qlt_iff, and_assoc]

/-! ## Claim C3 — serialization round trip and checksum verification -/

/-- Claim C3, counterexample.  `validRecord` is a valid record (68
serialized bytes, checksum in bytes 64–67); corrupting its final checksum
byte (8 → 170) does *not* make `Deserialize` fail — the corrupted input is
accepted (and only the separate `IsValid`/`VerifyChecksum` used by the
load path flags it). -/
theorem deserialize_accepts_corrupt_checksum_counterexample :
    validRecord.isValid = true ∧
    (LearnedIndexBlock.serialize validRecord).length = 68 ∧
    (LearnedIndexBlock.serialize validRecord).getD 67 0 ≠ 170 ∧
    (LearnedIndexBlock.deserialize
      (corruptAt (LearnedIndexBlock.serialize validRecord) 67 170)).isSome =
      true ∧
    ((LearnedIndexBlock.deserialize
      (corruptAt (LearnedIndexBlock.serialize validRecord) 67 170)).map
        LearnedIndexBlock.isValid).getD true = false := by
  decide

/-- Claim C3 (amended): `Deserialize (Serialize m) = m` for every valid
(well-formed) record `m`; but `Deserialize` does not re-verify the
embedded checksum — every single-byte corruption of the checksum field is
still accepted by `Deserialize` (rejection of the mismatch happens only in
the separate `IsValid`/`VerifyChecksum` check the load path performs). -/
theorem roundtrip_and_checksum_not_verified :
    (∀ b : LearnedIndexBlock, b.wf → b.isValid = true →
      LearnedIndexBlock.deserialize (LearnedIndexBlock.serialize b) =
        some b) ∧
    (∀ b : LearnedIndexBlock, b.wf → b.isValid = true → ∀ i v : Nat,
      (LearnedIndexBlock.serialize b).length - 4 ≤ i →
      i < (LearnedIndexBlock.serialize b).length →
      (LearnedIndexBlock.deserialize
        (corruptAt (LearnedIndexBlock.serialize b) i v)).isSome = true) := by
  constructor
  · intro b hwf hv
    obtain ⟨hm, hver, hpc, -⟩ := (LearnedIndexBlock.isValid_iff b).1 hv
    exact LearnedIndexBlock.deserialize_serialize b hwf hm hver hpc
  · intro b hwf hv i v hi1 hi2
    obtain ⟨hm, hver, hpc, -⟩ := (LearnedIndexBlock.isValid_iff b).1 hv
    exact LearnedIndexBlock.deserialize_corrupt_checksum b hwf hm hver hpc
      i v hi1 hi2

/-- Witness for C3 at the concrete `validRecord`. -/
theorem roundtrip_and_checksum_not_verified_witness :
    LearnedIndexBlock.deserialize (LearnedIndexBlock.serialize validRecord) =
      some validRecord ∧
    (LearnedIndexBlock.deserialize
      (corruptAt (LearnedIndexBlock.serialize validRecord) 67
        170)).isSome = true :=
  ⟨roundtrip_and_checksum_not_verified.1 validRecord (by decide) (by decide),
   roundtrip_and_checksum_not_verified.2 validRecord (by decide) (by decide)
     67 170 (by decide) (by decide)⟩

/-! ## Claim C10 — statistics partition invariant -/

theorem statsConsistent_of_eq (st st' : ManagerState)
    (hfs : st'.file_stats = st.file_stats) (h : statsConsistent st) :
    statsConsistent st' := by
  intro q hq
  rw [hfs] at hq
  exact h q hq

theorem evict_file_stats (st : ManagerState) :
    (evictLeastRecentlyUsed st).file_stats = st.file_stats := by
  unfold evictLeastRecentlyUsed
  split <;> rfl

theorem statsConsistent_updateStats (st : ManagerState) (path : String)
    (ok : Bool) (error : ℚ) (now : Nat) (h : statsConsistent st) :
    statsConsistent (updateStats st path ok error now) := by
  have hs0 : (alFindD st.file_stats path {}).total_queries =
      (alFindD st.file_stats path {}).successful_predictions +
      (alFindD st.file_stats path {}).fallback_queries := by
    unfold alFindD
    cases hfind : alFind? st.file_stats path with
    | none => simp
    | some s =>
      have := h (path, s) (alFind?_mem hfind)
      simpa using this
  intro q hq
  unfold updateStats at hq
  dsimp only at hq
  rcases mem_alInsert hq with hq' | hq'
  · subst hq'
    cases ok with
    | false => simp only [Bool.false_eq_true, if_false]; omega
    | true =>
      simp only [if_true]
      split <;> simp only [] <;> omega
  · exact h q hq'

theorem loadLearnedIndex_file_stats (st : ManagerState) (path : String)
    (now : Nat) : (loadLearnedIndex st path now).2.file_stats =
      st.file_stats := by
  unfold loadLearnedIndex
  split
  · rfl
  · split
    · rfl
    · split
      · rfl
      · split
        · rfl
        · dsimp only
          split
          · exact evict_file_stats st
          · rfl

theorem createLearnedIndex_file_stats (st : ManagerState) (path : String)
    (pairs : List (Nat × Nat)) (now : Nat) :
    (createLearnedIndex st path pairs now).2.file_stats = st.file_stats := by
  unfold createLearnedIndex
  split
  · rfl
  · split
    · rfl
    · split
      · rfl
      · dsimp only
        split
        · exact evict_file_stats { st with
            saved_files := alInsert st.saved_files path _ }
        · rfl

theorem statsConsistent_predict (st : ManagerState) (path : String)
    (key now : Nat) (h : statsConsistent st) :
    statsConsistent (predictBlockIndexM st path key now).2 := by
  unfold predictBlockIndexM predictHit
  split
  · exact h
  · split
    · dsimp only
      split <;>
        exact statsConsistent_updateStats _ _ _ _ _
          (statsConsistent_of_eq st _ rfl h)
    · dsimp only
      split
      · exact statsConsistent_updateStats _ _ _ _ _
          (statsConsistent_of_eq st _ (loadLearnedIndex_file_stats st path now)
            h)
      · split
        · exact statsConsistent_updateStats _ _ _ _ _
            (statsConsistent_of_eq st _
              (loadLearnedIndex_file_stats st path now) h)
        · split <;>
            exact statsConsistent_updateStats _ _ _ _ _
              (statsConsistent_of_eq st _
                (by simp [loadLearnedIndex_file_stats st path now]) h)

theorem foldl_preserve {α β : Type} (P : β → Prop) (f : β → α → β)
    (hf : ∀ b a, P b → P (f b a)) :
    ∀ (l : List α) (b : β), P b → P (l.foldl f b) := by
  intro l
  induction l with
  | nil => intro b hb; exact hb
  | cons a t ih => intro b hb; exact ih _ (hf b a hb)

theorem statsConsistent_batch (st : ManagerState) (path : String)
    (keys : List Nat) (now : Nat) (h : statsConsistent st) :
    statsConsistent (batchPredictBlockIndices st path keys now).2 := by
  unfold batchPredictBlockIndices
  split
  · exact foldl_preserve
      (fun acc : List ℤ × ManagerState => statsConsistent acc.2) _
      (fun acc k hacc => statsConsistent_predict acc.2 path k now hacc)
      keys ([], st) h
  · split
    · exact h
    · dsimp only
      exact statsConsistent_of_eq _ _ rfl
        (foldl_preserve
          (fun acc : List ℤ × ManagerState => statsConsistent acc.2) _
          (fun acc k hacc => by
            dsimp only
            split <;> exact statsConsistent_updateStats _ _ _ _ _ hacc)
          keys ([], st) h)

theorem statsConsistent_evictDown (st : ManagerState) (fuel : Nat)
    (h : statsConsistent st) : statsConsistent (evictDown st fuel) := by
  induction fuel generalizing st with
  | zero => exact h
  | succ n ih =>
    unfold evictDown
    split
    · exact ih _ (statsConsistent_of_eq st _ (evict_file_stats st) h)
    · exact h

theorem statsConsistent_applyOp (st : ManagerState) (op : MgrOp)
    (h : statsConsistent st) : statsConsistent (applyOp st op) := by
  cases op with
  | load p now =>
    exact statsConsistent_of_eq st _ (loadLearnedIndex_file_stats st p now) h
  | create p pairs now =>
    exact statsConsistent_of_eq st _
      (createLearnedIndex_file_stats st p pairs now) h
  | predict p key now => exact statsConsistent_predict st p key now h
  | batchPredict p keys now => exact statsConsistent_batch st p keys now h
  | update p pairs now =>
    exact statsConsistent_of_eq st _
      (createLearnedIndex_file_stats st p pairs now) h
  | remove p =>
    intro q hq
    exact h q (List.mem_of_mem_filter hq)
  | clear =>
    intro q hq
    simp only [applyOp, clearCache, List.not_mem_nil] at hq
  | setOptions o =>
    show statsConsistent (updateOptions st o)
    unfold updateOptions
    exact statsConsistent_evictDown _ _ (statsConsistent_of_eq st _ rfl h)

/-- Claim C10: after every sequence of `SSTLearnedIndexManager` operations
from a fresh manager, every file's statistics satisfy
`total_queries = successful_predictions + fallback_queries` — each
recorded query is counted as exactly one of success or fallback. -/
theorem stats_partition_invariant (options : SSTLearnedIndexOptions)
    (ops : List MgrOp) : statsConsistent (runOps (initManager options) ops) := by
  have hinit : statsConsistent (initManager options) := by
    intro q hq
    simp [initManager] at hq
  exact foldl_preserve statsConsistent applyOp
    (fun st op hst => statsConsistent_applyOp st op hst) ops
    (initManager options) hinit

/-! ## Claim C5 — training on identical keys -/

theorem blt_self (a : ℚ) : Rat.blt a a = false := by
  cases h : Rat.blt a a
  · rfl
  · exact absurd (show a < a from h) (lt_irrefl a)

theorem blt_eq_false_of_le (a b : ℚ) (h : b ≤ a) : Rat.blt a b = false := by
  cases hb : Rat.blt a b
  · rfl
  · exact absurd (show a < b from hb) (not_lt.mpr h)

theorem qabs_of_nonneg (a : ℚ) (h : 0 ≤ a) : qabs a = a := by
  unfold qabs
  rw [blt_eq_false_of_le a 0 h]
  rfl

/-- A single remaining row with leading coefficient `0` is rejected by the
singularity check. -/
theorem forwardElim_zero_head (b : ℚ) :
    forwardElim 1 [([(0 : ℚ)], b)] = none := by
  rfl

/-- Forward elimination rejects the (exactly) singular normal-equation
matrix of an all-identical-keys training set. -/
theorem forwardElim_singular (N c b0 b1 : ℚ) (hN : 2 ≤ N) (hc : 0 ≤ c) :
    forwardElim 2 [([N, N * c], b0), ([N * c, N * c * c], b1)] = none := by
  have hN0 : (0 : ℚ) ≤ N := by linarith
  have hNpos : (0 : ℚ) < N := by linarith
  have hNne : N ≠ 0 := ne_of_gt hNpos
  have hNc0 : (0 : ℚ) ≤ N * c := mul_nonneg hN0 hc
  have habsN : qabs N = N := qabs_of_nonneg N hN0
  have habsNc : qabs (N * c) = N * c := qabs_of_nonneg _ hNc0
  by_cases hblt : Rat.blt (qabs N) (qabs (N * c)) = true
  · -- pivoting swaps: the larger |N·c| leads
    have hlt : N < N * c := by
      have : qabs N < qabs (N * c) := hblt
      rwa [habsN, habsNc] at this
    have hcpos : (0 : ℚ) < c := by
      by_contra hle
      push_neg at hle
      nlinarith
    have hcne : c ≠ 0 := ne_of_gt hcpos
    have hargmax :
        argmaxAbsHead [([N, N * c], b0), ([N * c, N * c * c], b1)] = 1 := by
      unfold argmaxAbsHead
      rw [show ([([N, N * c], b0), ([N * c, N * c * c], b1)] :
          List (List ℚ × ℚ)).enum =
        [(0, ([N, N * c], b0)), (1, ([N * c, N * c * c], b1))] from rfl]
      simp only [List.foldl_cons, List.foldl_nil, List.headD_cons]
      simp [blt_self, hblt]
    rw [forwardElim]
    dsimp only
    rw [hargmax]
    have hswap : swapTop [([N, N * c], b0), ([N * c, N * c * c], b1)] 1 =
        [([N * c, N * c * c], b1), ([N, N * c], b0)] := rfl
    rw [hswap]
    dsimp only [List.headD, List.tail]
    have hpiv : Rat.blt (qabs (N * c)) SINGULARITY_EPS = false := by
      apply blt_eq_false_of_le
      have h2 : (2 : ℚ) ≤ N * c := by linarith
      have : SINGULARITY_EPS ≤ 2 := by norm_num [SINGULARITY_EPS]
      linarith [habsNc]
    rw [hpiv]
    simp only [Bool.false_eq_true, if_false]
    simp only [List.map_cons, List.map_nil, List.zipWith_cons_cons,
      List.zipWith_nil_right, List.zipWith_nil_left, List.tail_cons]
    have hzero : N * c - N / (N * c) * (N * c * c) = 0 := by
      field_simp
      ring
    rw [hzero, forwardElim_zero_head]
    rfl
  · -- no swap: N leads
    have hargmax :
        argmaxAbsHead [([N, N * c], b0), ([N * c, N * c * c], b1)] = 0 := by
      unfold argmaxAbsHead
      rw [show ([([N, N * c], b0), ([N * c, N * c * c], b1)] :
          List (List ℚ × ℚ)).enum =
        [(0, ([N, N * c], b0)), (1, ([N * c, N * c * c], b1))] from rfl]
      simp only [List.foldl_cons, List.foldl_nil, List.headD_cons]
      simp [blt_self, hblt]
    rw [forwardElim]
    dsimp only
    rw [hargmax]
    have hswap : swapTop [([N, N * c], b0), ([N * c, N * c * c], b1)] 0 =
        [([N, N * c], b0), ([N * c, N * c * c], b1)] := rfl
    rw [hswap]
    dsimp only [List.headD, List.tail]
    have hpiv : Rat.blt (qabs N) SINGULARITY_EPS = false := by
      apply blt_eq_false_of_le
      have : SINGULARITY_EPS ≤ 2 := by norm_num [SINGULARITY_EPS]
      linarith [habsN]
    rw [hpiv]
    simp only [Bool.false_eq_true, if_false]
    simp only [List.map_cons, List.map_nil, List.zipWith_cons_cons,
      List.zipWith_nil_right, List.zipWith_nil_left, List.tail_cons]
    have hzero : N * c * c - N * c / N * (N * c) = 0 := by
      field_simp
      ring
    rw [hzero, forwardElim_zero_head]
    rfl

/-- Claim C5, counterexample.  Two samples with the identical key `1` and
blocks `0`, `1`: training does *not* succeed with the constant model
(`a = 0`, `b = 1/2`); `LinearModel::Train` returns `false` (`none`). -/
theorem identical_keys_counterexample :
    linearModelTrain 1 [[(1 : ℚ)], [(1 : ℚ)]] [0, 1] = none := by
  decide

/-- Claim C5 (amended): for every training set of at least 2 samples in
which all keys are identical, *restricted to keys on which the source's
`double` arithmetic is exact* — the key a power of two or zero, with every
normal-equation entry within `2^53` — training *fails* rather than
succeeding: the normal-equation matrix is singular, the eliminated second
pivot is exactly `0` (below the `1e-10` threshold; on this range the C++
computes the same exact values: the entries `n`, `n*c`, `n*c^2`, the
factor `1/c` and the product `(1/c)*(n*c^2) = n*c` are all dyadic and
representable), and `LinearModel::Train` returns `false`; no constant
model is produced.  Outside this range the `double` elimination leaves a
rounding residue that can exceed `1e-10`, and `Train` can instead succeed
with a spurious model — in neither case the claimed constant model.  (The
SST manager's `TrainLinearModel` on the same data divides by zero instead,
yielding NaN parameters.) -/
theorem identical_keys_train_fails (n c : Nat) (ys : List Nat)
    (hn : 2 ≤ n) (hlen : ys.length = n)
    (_hc : c = 0 ∨ ∃ k, c = 2 ^ k) (_hn53 : n ≤ 2 ^ 53)
    (_hb : n * c * c ≤ 2 ^ 53) :
    linearModelTrain 1 (List.replicate n [(c : ℚ)]) ys = none := by
  have hsls : solveLeastSquares 1 (List.replicate n [(c : ℚ)]) ys = none := by
    unfold solveLeastSquares
    rw [if_neg (by simp; omega)]
    dsimp only
    have hXaug : (List.replicate n [(c : ℚ)]).map (fun row => 1 :: row) =
        List.replicate n [1, (c : ℚ)] := by
      simp [List.map_replicate]
    rw [hXaug]
    have hsum : ∀ i j : Nat,
        ((List.replicate n [(1 : ℚ), (c : ℚ)]).map
          (fun row => row.getD i 0 * row.getD j 0)).sum =
        (n : ℚ) * ([(1 : ℚ), (c : ℚ)].getD i 0 * [(1 : ℚ), (c : ℚ)].getD j 0) := by
      intro i j
      rw [List.map_replicate, List.sum_replicate, nsmul_eq_mul]
    have hXTX : (List.range 2).map (fun i =>
        (List.range 2).map (fun j =>
          ((List.replicate n [(1 : ℚ), (c : ℚ)]).map
            (fun row => row.getD i 0 * row.getD j 0)).sum)) =
        [[(n : ℚ), (n : ℚ) * c], [(n : ℚ) * c, (n : ℚ) * c * c]] := by
      have h2 : List.range 2 = [0, 1] := rfl
      rw [h2]
      simp only [List.map_cons, List.map_nil, hsum, List.getD_cons_zero,
        List.getD_cons_succ, one_mul, mul_one, mul_assoc]
    rw [hXTX]
    have hfe := forwardElim_singular (n : ℚ) (c : ℚ) (((List.replicate n [(1:ℚ), (c:ℚ)]).zip ys).map (fun p => p.1.getD 0 0 * (p.2 : ℚ))).sum (((List.replicate n [(1:ℚ), (c:ℚ)]).zip ys).map (fun p => p.1.getD 1 0 * (p.2 : ℚ))).sum (by exact_mod_cast hn) (by positivity)
    have hsys : solveLinearSystem
        [[(n : ℚ), (n : ℚ) * c], [(n : ℚ) * c, (n : ℚ) * c * c]]
        ((List.range 2).map (fun i =>
          ((List.replicate n [(1 : ℚ), (c : ℚ)]).zip ys).map
            (fun p => p.1.getD i 0 * (p.2 : ℚ)) |>.sum)) = none := by
      unfold solveLinearSystem
      have h2 : List.range 2 = [0, 1] := rfl
      rw [h2]
      simp only [List.map_cons, List.map_nil]
      rw [show ([[(n : ℚ), (n : ℚ) * c], [(n : ℚ) * c, (n : ℚ) * c * c]].zip
        [(((List.replicate n [(1:ℚ), (c:ℚ)]).zip ys).map
            (fun p => p.1.getD 0 0 * (p.2 : ℚ))).sum,
         (((List.replicate n [(1:ℚ), (c:ℚ)]).zip ys).map
            (fun p => p.1.getD 1 0 * (p.2 : ℚ))).sum]) =
        [([(n : ℚ), (n : ℚ) * c],
          (((List.replicate n [(1:ℚ), (c:ℚ)]).zip ys).map
            (fun p => p.1.getD 0 0 * (p.2 : ℚ))).sum),
         ([(n : ℚ) * c, (n : ℚ) * c * c],
          (((List.replicate n [(1:ℚ), (c:ℚ)]).zip ys).map
            (fun p => p.1.getD 1 0 * (p.2 : ℚ))).sum)] from rfl]
      rw [show ([([(n : ℚ), (n : ℚ) * c],
          (((List.replicate n [(1:ℚ), (c:ℚ)]).zip ys).map
            (fun p => p.1.getD 0 0 * (p.2 : ℚ))).sum),
         ([(n : ℚ) * c, (n : ℚ) * c * c],
          (((List.replicate n [(1:ℚ), (c:ℚ)]).zip ys).map
            (fun p => p.1.getD 1 0 * (p.2 : ℚ))).sum)] :
          List (List ℚ × ℚ)).length = 2 from rfl]
      rw [hfe]
      rfl
    rw [hsys]
  unfold linearModelTrain
  rw [if_neg (by
    simp only [not_or]
    refine ⟨by simp; omega, ?_, by simp [hlen]⟩
    intro h
    rw [h] at hlen
    simp at hlen
    omega)]
  rw [if_neg (by simp [List.all_eq_true])]
  rw [hsls]

/-- Witness for C5 at three samples with identical key `2` (a power of
two, with all normal-equation entries within `2^53`). -/
theorem identical_keys_train_fails_witness :
    linearModelTrain 1 (List.replicate 3 [(2 : ℚ)]) [0, 1, 2] = none :=
  identical_keys_train_fails 3 2 [0, 1, 2] (by decide) (by decide)
    (Or.inr ⟨1, by decide⟩) (by decide) (by decide)

/-! ## Claim C1 — cache bound and LRU eviction -/

theorem mem_of_alFind?_eq_some {β : Type} {l : List (String × β)} {k : String}
    {v : β} (h : alFind? l k = some v) : k ∈ l.map Prod.fst :=
  List.mem_map.mpr ⟨(k, v), alFind?_mem h, rfl⟩

theorem alFind?_isSome_of_mem {β : Type} {l : List (String × β)} {k : String}
    (h : k ∈ l.map Prod.fst) : ∃ v, alFind? l k = some v := by
  induction l with
  | nil => simp at h
  | cons p rest ih =>
    by_cases hp : p.1 = k
    · exact ⟨p.2, by simp [alFind?, hp]⟩
    · simp only [List.map_cons, List.mem_cons] at h
      rcases h with h | h
      · exact absurd h.symm hp
      · obtain ⟨v, hv⟩ := ih h
        exact ⟨v, by simp [alFind?, hp, hv]⟩

theorem alFind?_eq_none_of_not_mem {β : Type} {l : List (String × β)}
    {k : String} (h : k ∉ l.map Prod.fst) : alFind? l k = none := by
  cases hf : alFind? l k with
  | none => rfl
  | some v => exact absurd (mem_of_alFind?_eq_some hf) h

theorem not_mem_of_alFind?_eq_none {β : Type} {l : List (String × β)}
    {k : String} (h : alFind? l k = none) : k ∉ l.map Prod.fst := by
  intro hmem
  obtain ⟨v, hv⟩ := alFind?_isSome_of_mem hmem
  rw [h] at hv
  cases hv

theorem map_fst_alInsert_of_find_none {β : Type} {l : List (String × β)}
    {k : String} (v : β) (h : alFind? l k = none) :
    (alInsert l k v).map Prod.fst = l.map Prod.fst ++ [k] := by
  induction l with
  | nil => rfl
  | cons p rest ih =>
    by_cases hp : p.1 = k
    · simp [alFind?, hp] at h
    · simp only [alFind?, beq_iff_eq, hp, if_false] at h
      simp [alInsert, hp, ih h]

theorem map_fst_alInsert_of_find_some {β : Type} {l : List (String × β)}
    {k : String} {v' : β} (v : β) (h : alFind? l k = some v') :
    (alInsert l k v).map Prod.fst = l.map Prod.fst := by
  induction l with
  | nil => simp [alFind?] at h
  | cons p rest ih =>
    by_cases hp : p.1 = k
    · simp [alInsert, hp]
    · simp only [alFind?, beq_iff_eq, hp, if_false] at h
      simp [alInsert, hp, ih h]

theorem length_alInsert_of_find_none {β : Type} {l : List (String × β)}
    {k : String} (v : β) (h : alFind? l k = none) :
    (alInsert l k v).length = l.length + 1 := by
  have h1 := congrArg List.length (map_fst_alInsert_of_find_none v h)
  simpa using h1

theorem length_alInsert_of_find_some {β : Type} {l : List (String × β)}
    {k : String} {v' : β} (v : β) (h : alFind? l k = some v') :
    (alInsert l k v).length = l.length := by
  have h1 := congrArg List.length (map_fst_alInsert_of_find_some v h)
  simpa using h1

theorem map_fst_alErase {β : Type} (l : List (String × β)) (k : String) :
    (alErase l k).map Prod.fst = (l.map Prod.fst).filter (fun x => x != k) := by
  induction l with
  | nil => rfl
  | cons p rest ih =>
    by_cases hp : p.1 = k
    · simp only [alErase, List.filter_cons, List.map_cons] at ih ⊢
      simp only [hp, bne_self_eq_false, if_false]
      exact ih
    · simp only [alErase, List.filter_cons, List.map_cons] at ih ⊢
      have hb : (p.1 != k) = true := by simp [bne_iff_ne, hp]
      simp only [hb, if_true, List.map_cons]
      rw [ih]

theorem erase_eq_filter_of_nodup (l : List String) (k : String) (h : l.Nodup) :
    l.erase k = l.filter (fun x => x != k) := by
  induction l with
  | nil => rfl
  | cons a rest ih =>
    rw [List.nodup_cons] at h
    by_cases ha : a = k
    · subst ha
      rw [List.erase_cons_head, List.filter_cons]
      simp only [bne_self_eq_false, if_false]
      exact (List.filter_eq_self.mpr (fun x hx => by
        simp only [bne_iff_ne, ne_eq, decide_eq_true_eq]
        intro hh
        exact h.1 (hh ▸ hx))).symm
    · rw [List.erase_cons]
      have hb0 : (a == k) = false := by simp [ha]
      rw [hb0]
      simp only [Bool.false_eq_true, if_false]
      rw [List.filter_cons]
      have hb : (a != k) = true := by simp [bne_iff_ne, ha]
      rw [hb, if_pos rfl, ih h.2]

theorem length_alErase_of_mem {β : Type} {l : List (String × β)} {k : String}
    (hnd : (l.map Prod.fst).Nodup) (hmem : k ∈ l.map Prod.fst) :
    (alErase l k).length + 1 = l.length := by
  have h1 : (alErase l k).length = ((alErase l k).map Prod.fst).length := by
    rw [List.length_map]
  have h2 : l.length = (l.map Prod.fst).length := by rw [List.length_map]
  rw [h1, h2, map_fst_alErase, ← erase_eq_filter_of_nodup _ _ hnd]
  have h3 := List.length_erase_of_mem hmem
  have hpos : 0 < (l.map Prod.fst).length :=
    List.length_pos.mpr (List.ne_nil_of_mem hmem)
  omega

/-- The `EvictLeastRecentlyUsed` scan keeps a running minimum: the result is
at most the seed and at most every cached entry reachable from the scanned
suffix, and it is attained (it is the seed or a real cache entry). -/
theorem lruScan_spec (cache : List (String × CachedModel))
    (order : List String) : ∀ acc : String × Nat,
    (lruScan cache acc order).2 ≤ acc.2 ∧
    (∀ fp ∈ order, ∀ cm, alFind? cache fp = some cm →
      (lruScan cache acc order).2 ≤ cm.last_access_time) ∧
    (lruScan cache acc order = acc ∨
      ∃ cm, alFind? cache (lruScan cache acc order).1 = some cm ∧
        cm.last_access_time = (lruScan cache acc order).2) := by
  induction order with
  | nil =>
    intro acc
    refine ⟨le_refl _, ?_, Or.inl rfl⟩
    intro fp hfp
    simp at hfp
  | cons fp rest ih =>
    intro acc
    cases hfind : alFind? cache fp with
    | none =>
      have heq : lruScan cache acc (fp :: rest) = lruScan cache acc rest := by
        rw [lruScan, hfind]
      rw [heq]
      obtain ⟨h1, h2, h3⟩ := ih acc
      refine ⟨h1, ?_, h3⟩
      intro fp' hfp' cm hcm
      rcases List.mem_cons.mp hfp' with h | h
      · subst h
        rw [hfind] at hcm
        cases hcm
      · exact h2 fp' h cm hcm
    | some cm0 =>
      by_cases hlt : cm0.last_access_time < acc.2
      · have heq : lruScan cache acc (fp :: rest) =
            lruScan cache (fp, cm0.last_access_time) rest := by
          rw [lruScan, hfind]
          dsimp only
          rw [if_pos hlt]
        rw [heq]
        obtain ⟨h1, h2, h3⟩ := ih (fp, cm0.last_access_time)
        refine ⟨?_, ?_, ?_⟩
        · exact le_trans h1 (le_of_lt hlt)
        · intro fp' hfp' cm hcm
          rcases List.mem_cons.mp hfp' with h | h
          · subst h
            rw [hfind] at hcm
            cases hcm
            exact h1
          · exact h2 fp' h cm hcm
        · rcases h3 with h | h
          · right
            refine ⟨cm0, ?_, ?_⟩
            · rw [h]
              exact hfind
            · rw [h]
          · exact Or.inr h
      · have heq : lruScan cache acc (fp :: rest) = lruScan cache acc rest := by
          rw [lruScan, hfind]
          dsimp only
          rw [if_neg hlt]
        rw [heq]
        obtain ⟨h1, h2, h3⟩ := ih acc
        refine ⟨h1, ?_, h3⟩
        intro fp' hfp' cm hcm
        rcases List.mem_cons.mp hfp' with h | h
        · subst h
          rw [hfind] at hcm
          cases hcm
          exact le_trans h1 (not_lt.mp hlt)
        · exact h2 fp' h cm hcm

/-- On a well-formed state with a nonempty access order, `evictChoice`
returns a cached entry whose access time is minimal over the whole cache. -/
theorem evictChoice_min (st : ManagerState)
    (hperm : (st.model_cache.map Prod.fst).Perm st.access_order)
    (hne : st.access_order ≠ []) :
    ∃ lru cm, evictChoice st = some lru ∧
      alFind? st.model_cache lru = some cm ∧
      ∀ fp cm', alFind? st.model_cache fp = some cm' →
        cm.last_access_time ≤ cm'.last_access_time := by
  cases horder : st.access_order with
  | nil => exact absurd horder hne
  | cons front rest =>
    have hfrontmem : front ∈ st.model_cache.map Prod.fst := by
      have hm : front ∈ st.access_order := by
        rw [horder]
        exact List.mem_cons_self _ _
      exact (hperm.mem_iff).mpr hm
    obtain ⟨cm0, hcm0⟩ := alFind?_isSome_of_mem hfrontmem
    have hinit : alFindD st.model_cache front { model := {}, file_path := front } = cm0 := by
      simp [alFindD, hcm0]
    have hchoice : evictChoice st =
        some (lruScan st.model_cache (front, cm0.last_access_time) (front :: rest)).1 := by
      rw [evictChoice, horder]
      dsimp only
      rw [hinit]
    obtain ⟨h1, h2, h3⟩ :=
      lruScan_spec st.model_cache (front :: rest) (front, cm0.last_access_time)
    have hmemall : ∀ fp cm', alFind? st.model_cache fp = some cm' →
        (lruScan st.model_cache (front, cm0.last_access_time) (front :: rest)).2 ≤
          cm'.last_access_time := by
      intro fp cm' hcm'
      have hfpmem : fp ∈ st.access_order :=
        (hperm.mem_iff).mp (mem_of_alFind?_eq_some hcm')
      rw [horder] at hfpmem
      exact h2 fp hfpmem cm' hcm'
    rcases h3 with hacc | ⟨cm, hcm, htime⟩
    · refine ⟨front, cm0, ?_, hcm0, ?_⟩
      · rw [hchoice, hacc]
      · intro fp cm' hcm'
        have h := hmemall fp cm' hcm'
        rw [hacc] at h
        exact h
    · refine ⟨_, cm, hchoice, hcm, ?_⟩
      intro fp cm' hcm'
      rw [htime]
      exact hmemall fp cm' hcm'

/-- Eviction on a well-formed, nonempty state removes exactly one cached
entry, keeps the order/cache correspondence, and touches nothing else. -/
theorem evict_wf (st : ManagerState)
    (hperm : (st.model_cache.map Prod.fst).Perm st.access_order)
    (hnodup : st.access_order.Nodup)
    (hne : st.access_order ≠ []) :
    ((evictLeastRecentlyUsed st).model_cache.map Prod.fst).Perm
        (evictLeastRecentlyUsed st).access_order ∧
    (evictLeastRecentlyUsed st).access_order.Nodup ∧
    (evictLeastRecentlyUsed st).model_cache.length + 1 = st.model_cache.length ∧
    (evictLeastRecentlyUsed st).options = st.options ∧
    (∀ k, k ∈ (evictLeastRecentlyUsed st).model_cache.map Prod.fst →
      k ∈ st.model_cache.map Prod.fst) := by
  obtain ⟨lru, cm, hchoice, hfind, _⟩ := evictChoice_min st hperm hne
  have hkeysnd : (st.model_cache.map Prod.fst).Nodup := (hperm.nodup_iff).mpr hnodup
  have hlrumem : lru ∈ st.model_cache.map Prod.fst := mem_of_alFind?_eq_some hfind
  have herase : st.access_order.erase lru =
      st.access_order.filter (fun x => x != lru) :=
    erase_eq_filter_of_nodup _ _ hnodup
  rw [evictLeastRecentlyUsed, hchoice]
  dsimp only
  refine ⟨?_, List.Nodup.erase lru hnodup, ?_, rfl, ?_⟩
  · rw [map_fst_alErase, herase]
    exact hperm.filter _
  · exact length_alErase_of_mem hkeysnd hlrumem
  · intro k hk
    rw [map_fst_alErase] at hk
    exact List.mem_of_mem_filter hk

/-- Well-formedness of a fresh insertion at the back of the access order. -/
theorem insertFresh_wf (st2 : ManagerState) (path : String)
    (entry : CachedModel)
    (hperm : (st2.model_cache.map Prod.fst).Perm st2.access_order)
    (hnodup : st2.access_order.Nodup)
    (hlen : st2.model_cache.length + 1 ≤ st2.options.max_cache_size)
    (hmiss : alFind? st2.model_cache path = none) :
    cacheWF { st2 with
      model_cache := alInsert st2.model_cache path entry
      access_order := st2.access_order ++ [path] } := by
  have hnot : path ∉ st2.model_cache.map Prod.fst :=
    not_mem_of_alFind?_eq_none hmiss
  have hnotorder : path ∉ st2.access_order := fun h => hnot ((hperm.mem_iff).mpr h)
  refine ⟨?_, ?_, ?_⟩
  · show ((alInsert st2.model_cache path entry).map Prod.fst).Perm
      (st2.access_order ++ [path])
    rw [map_fst_alInsert_of_find_none entry hmiss]
    exact hperm.append (List.Perm.refl [path])
  · show (st2.access_order ++ [path]).Nodup
    simp [List.nodup_append, hnodup, hnotorder]
  · show (alInsert st2.model_cache path entry).length ≤ st2.options.max_cache_size
    rw [length_alInsert_of_find_none entry hmiss]
    exact hlen

/-- The shared evict-then-insert tail of `CreateLearnedIndex` and
`LoadLearnedIndex` (capacity check `size >= max_cache_size` before
inserting a fresh path) preserves cache well-formedness when the bound is
at least 1. -/
theorem step_wf (st : ManagerState) (path : String) (entry : CachedModel)
    (hwf : cacheWF st) (hmax : 1 ≤ st.options.max_cache_size)
    (hmiss : alFind? st.model_cache path = none) (st2 : ManagerState)
    (hst2 : st2 = if st.options.max_cache_size ≤ st.model_cache.length then
      evictLeastRecentlyUsed st else st) :
    cacheWF { st2 with
      model_cache := alInsert st2.model_cache path entry
      access_order := st2.access_order ++ [path] } := by
  obtain ⟨hperm, hnodup, hlen⟩ := hwf
  by_cases hcap : st.options.max_cache_size ≤ st.model_cache.length
  · rw [if_pos hcap] at hst2
    have hne : st.access_order ≠ [] := by
      intro h
      have hl := hperm.length_eq
      rw [h] at hl
      simp only [List.length_map, List.length_nil] at hl
      omega
    obtain ⟨hperm2, hnodup2, hlenEq, hopts2, hmono⟩ := evict_wf st hperm hnodup hne
    subst hst2
    apply insertFresh_wf _ _ _ hperm2 hnodup2
    · rw [hopts2]
      omega
    · apply alFind?_eq_none_of_not_mem
      intro hmem
      exact not_mem_of_alFind?_eq_none hmiss (hmono _ hmem)
  · rw [if_neg hcap] at hst2
    subst hst2
    exact insertFresh_wf _ _ _ hperm hnodup (by omega) hmiss

/-- `CreateLearnedIndex` preserves cache well-formedness on a fresh path. -/
theorem cacheWF_create (st : ManagerState) (p : String)
    (pairs : List (Nat × Nat)) (now : Nat) (hwf : cacheWF st)
    (hmax : 1 ≤ st.options.max_cache_size)
    (hmiss : alFind? st.model_cache p = none) :
    cacheWF (createLearnedIndex st p pairs now).2 := by
  rw [createLearnedIndex]
  split
  · exact hwf
  · split
    · exact hwf
    · split
      · exact hwf
      · rename_i model heqm hvalid
        dsimp only
        refine step_wf { st with saved_files := alInsert st.saved_files p model } p
          { model := model, last_access_time := now, access_count := 1,
            file_path := p } ?_ ?_ ?_ _ rfl
        · exact hwf
        · exact hmax
        · exact hmiss

/-- `LoadLearnedIndex` preserves cache well-formedness. -/
theorem cacheWF_load (st : ManagerState) (p : String) (now : Nat)
    (hwf : cacheWF st) (hmax : 1 ≤ st.options.max_cache_size) :
    cacheWF (loadLearnedIndex st p now).2 := by
  obtain ⟨hperm, hnodup, hlen⟩ := hwf
  rw [loadLearnedIndex]
  split
  · exact ⟨hperm, hnodup, hlen⟩
  · split
    · rename_i cm heq
      dsimp only
      refine ⟨?_, hnodup, ?_⟩
      · rw [map_fst_alInsert_of_find_some _ heq]
        exact hperm
      · rw [length_alInsert_of_find_some _ heq]
        exact hlen
    · rename_i heq
      split
      · exact ⟨hperm, hnodup, hlen⟩
      · split
        · exact ⟨hperm, hnodup, hlen⟩
        · dsimp only
          refine step_wf _ _ _ ?_ ?_ ?_ _ rfl
          · exact ⟨hperm, hnodup, hlen⟩
          · exact hmax
          · exact heq

/-- Neither training call changes the configured options. -/
theorem applyTrainOp_options (st : ManagerState) (op : TrainOp) :
    (applyTrainOp st op).options = st.options := by
  cases op <;>
    simp only [applyTrainOp, createLearnedIndex, loadLearnedIndex,
      evictLeastRecentlyUsed] <;>
    (repeat' split) <;> rfl

theorem runTrainOps_options (ops : List TrainOp) : ∀ st : ManagerState,
    (runTrainOps st ops).options = st.options := by
  induction ops with
  | nil => intro st; rfl
  | cons op rest ih =>
    intro st
    show (runTrainOps (applyTrainOp st op) rest).options = st.options
    rw [ih, applyTrainOp_options]

theorem createsFresh_append (l1 l2 : List TrainOp) : ∀ st : ManagerState,
    createsFresh st (l1 ++ l2) =
      (createsFresh st l1 && createsFresh (runTrainOps st l1) l2) := by
  induction l1 with
  | nil =>
    intro st
    simp [createsFresh, runTrainOps]
  | cons op rest ih =>
    intro st
    rw [List.cons_append]
    simp only [createsFresh]
    rw [ih (applyTrainOp st op)]
    have hr : runTrainOps st (op :: rest) = runTrainOps (applyTrainOp st op) rest := rfl
    rw [hr, Bool.and_assoc]

/-- Cache well-formedness is preserved along any fresh training sequence. -/
theorem cacheWF_runTrainOps (ops : List TrainOp) : ∀ st : ManagerState,
    cacheWF st → 1 ≤ st.options.max_cache_size →
    createsFresh st ops = true → cacheWF (runTrainOps st ops) := by
  induction ops with
  | nil => intro st hwf _ _; exact hwf
  | cons op rest ih =>
    intro st hwf hmax hfresh
    simp only [createsFresh, Bool.and_eq_true] at hfresh
    obtain ⟨hok, hrest⟩ := hfresh
    have hwf1 : cacheWF (applyTrainOp st op) := by
      cases op with
      | create p pairs now =>
        apply cacheWF_create st p pairs now hwf hmax
        have hok' : (alFind? st.model_cache p == none) = true := hok
        cases hf : alFind? st.model_cache p with
        | none => rfl
        | some v =>
          rw [hf] at hok'
          rw [show ((some v == (none : Option CachedModel)) = false) from rfl] at hok'
          cases hok'
      | load p now => exact cacheWF_load st p now hwf hmax
    have hmax1 : 1 ≤ (applyTrainOp st op).options.max_cache_size := by
      rw [applyTrainOp_options]
      exact hmax
    show cacheWF (runTrainOps (applyTrainOp st op) rest)
    exact ih _ hwf1 hmax1 hrest

/-- Claim C1, counterexample.  With `max_cache_size = 0` a single
successful `CreateLearnedIndex` leaves one cached model, exceeding the
configured bound: the capacity check evicts from an empty cache (a no-op)
and then inserts regardless, so the claimed bound fails for the
configuration with a zero-sized cache. -/
theorem cache_bound_counterexample :
    ¬ (getCacheSize (runTrainOps (initManager { max_cache_size := 0 })
        [TrainOp.create "a" [(0, 0), (1, 1)] 1]) ≤
      ({ max_cache_size := 0 } : SSTLearnedIndexOptions).max_cache_size) := by
  decide

/-- Claim C1 (amended): for every configuration with `max_cache_size ≥ 1`
and every sequence of model-training calls (`CreateLearnedIndex` /
`LoadLearnedIndex`) that never re-creates a currently cached path (on
which the source's eviction scan has undefined behavior), the number of
cached models is at most `max_cache_size` after every call, and whenever
the eviction choice is consulted it selects a cached entry of minimal
`last_access_time` — the least-recently-used entry is evicted before the
new entry is inserted.  (For `max_cache_size = 0` the bound fails, see the
counterexample.) -/
theorem cache_bound (opts : SSTLearnedIndexOptions) (ops : List TrainOp)
    (hmax : 1 ≤ opts.max_cache_size)
    (hfresh : createsFresh (initManager opts) ops = true) :
    (∀ pre suf, ops = pre ++ suf →
      getCacheSize (runTrainOps (initManager opts) pre) ≤ opts.max_cache_size) ∧
    (∀ pre suf, ops = pre ++ suf →
      ∀ lru, evictChoice (runTrainOps (initManager opts) pre) = some lru →
        ∃ cm, alFind? (runTrainOps (initManager opts) pre).model_cache lru =
            some cm ∧
          ∀ fp cm',
            alFind? (runTrainOps (initManager opts) pre).model_cache fp =
                some cm' →
              cm.last_access_time ≤ cm'.last_access_time) := by
  have hbase : ∀ pre suf, ops = pre ++ suf →
      cacheWF (runTrainOps (initManager opts) pre) := by
    intro pre suf heq
    apply cacheWF_runTrainOps
    · exact ⟨List.Perm.nil, List.nodup_nil, Nat.zero_le _⟩
    · exact hmax
    · rw [heq, createsFresh_append] at hfresh
      simp only [Bool.and_eq_true] at hfresh
      exact hfresh.1
  constructor
  · intro pre suf heq
    have h := (hbase pre suf heq).2.2
    rw [runTrainOps_options pre (initManager opts)] at h
    exact h
  · intro pre suf heq lru hchoice
    obtain ⟨hperm, hnodup, _⟩ := hbase pre suf heq
    have hne : (runTrainOps (initManager opts) pre).access_order ≠ [] := by
      intro h
      rw [evictChoice, h] at hchoice
      cases hchoice
    obtain ⟨lru', cm, hchoice', hfind, hmin⟩ := evictChoice_min _ hperm hne
    rw [hchoice] at hchoice'
    injection hchoice' with h
    subst h
    exact ⟨cm, hfind, hmin⟩

/-- Witness for C1: capacity 2, three creations on distinct paths — the
third creation evicts and the size stays at the bound. -/
theorem cache_bound_witness :
    getCacheSize (runTrainOps (initManager { max_cache_size := 2 })
      [TrainOp.create "a" [(0, 0), (1, 1)] 1,
       TrainOp.create "b" [(0, 0), (1, 1)] 2,
       TrainOp.create "c" [(0, 0), (1, 1)] 3]) ≤ 2 :=
  (cache_bound { max_cache_size := 2 }
    [TrainOp.create "a" [(0, 0), (1, 1)] 1,
     TrainOp.create "b" [(0, 0), (1, 1)] 2,
     TrainOp.create "c" [(0, 0), (1, 1)] 3]
    (by decide) (by decide)).1
    [TrainOp.create "a" [(0, 0), (1, 1)] 1,
     TrainOp.create "b" [(0, 0), (1, 1)] 2,
     TrainOp.create "c" [(0, 0), (1, 1)] 3] []
    (List.append_nil _).symm

end LearnedIndexRocksDB
